import Mathlib

/-!
Verification of the NPC generator's core logic against its specification.

This file gives a shallow embedding, in Lean, of the deterministic parts of
the generator:

* the personality-DNA encoder (`services/dnaGenerator.ts`, `generatePersonalityDna`),
* the personality-DNA decoder (`services/dnaDecoder.ts`, `decodeDna`),
* the markdown section extractor (`components/NpcCard.tsx`, `parsedProfile`),
* the tabletop stat-block calculator (`components/NpcCard.tsx`, `generateStats`),

and proves the specified properties about them.

Modelling conventions:

* JavaScript numbers that can be `NaN` (results of `parseInt`) are modelled
  as `Option Int`, with `none` standing for `NaN`.  All comparisons `x >= n`
  on such numbers are `false` when `x` is `NaN`, which `jsGe` reproduces.
* Strings are manipulated as `List Char`; `String.data` mediates.
* The randomness source (`Math.random` via `getRandomInt`) is injected as
  explicit lists of pre-drawn values, one list per call site, consumed in
  program order.  A hypothesis that each drawn value lies in the inclusive
  range passed to `getRandomInt` models every possible outcome.
* `Math.round(sum / len)` rounds half-up; for the magnitudes that occur here
  (sums of at most 20 single-digit scores) the floating-point division is
  exact at every tie, so the rational formula `(2*sum + len) / (2*len)`
  (natural division) is an exact model.
-/

namespace NpcDna

/-! ## Trait tables (sources of truth shared by encoder and decoder) -/

/-- The 20 paired (LNC) trait letter pairs used by the encoder
(`lncTraits` in `services/dnaGenerator.ts`).  The TS table stores one-character
strings; we model them as `Char`. -/
def lncTraits : List (Char × Char) := [
  ('B', 'C'), ('R', 'O'), ('L', 'T'), ('F', 'I'), ('S', 'X'),
  ('P', 'M'), ('D', 'U'), ('G', 'H'), ('Y', 'W'), ('E', 'A'),
  ('N', 'V'), ('K', 'Q'), ('Z', 'B'), ('O', 'P'), ('C', 'H'),
  ('R', 'L'), ('A', 'S'), ('D', 'A'), ('A', 'H'), ('I', 'C')]

/-- The 20 unpaired (GNE) trait letters used by the encoder
(`gneTraits` in `services/dnaGenerator.ts`). -/
def gneTraits : List Char :=
  ['H', 'C', 'K', 'G', 'L', 'J', 'M', 'F', 'E', 'B',
   'U', 'S', 'I', 'R', 'T', 'A', 'D', 'V', 'Y', 'X']

/-- The decoder's copy of the paired letter table
(`lncTraitKeys` in `services/dnaDecoder.ts`). -/
def lncTraitKeys : List (Char × Char) := [
  ('B', 'C'), ('R', 'O'), ('L', 'T'), ('F', 'I'), ('S', 'X'),
  ('P', 'M'), ('D', 'U'), ('G', 'H'), ('Y', 'W'), ('E', 'A'),
  ('N', 'V'), ('K', 'Q'), ('Z', 'B'), ('O', 'P'), ('C', 'H'),
  ('R', 'L'), ('A', 'S'), ('D', 'A'), ('A', 'H'), ('I', 'C')]

/-- The decoder's table of paired trait name pairs
(`lncTraitMap` in `services/dnaDecoder.ts`). -/
def lncTraitMap : List (String × String) := [
  ("Brave", "Cowardly"), ("Reserved", "Outspoken"), ("Reckless", "Cautious"),
  ("Confident", "Insecure"), ("Stoic", "Expressive"), ("Patient", "Impatient"),
  ("Methodical", "Impulsive"), ("Organized", "Chaotic"), ("Suspicious", "Trusting"),
  ("Serious", "Playful"), ("Introverted", "Extroverted"), ("Competitive", "Harmonious"),
  ("Tactful", "Blunt"), ("Optimistic", "Pessimistic"), ("Calm", "Hot-headed"),
  ("Perfectionist", "Laid-Back"), ("Authoritative", "Submissive"), ("Driven", "Apathetic"),
  ("Adventurous", "Hesitant"), ("Diplomatic", "Confrontational")]

/-- The decoder's letter-to-name object for unpaired traits
(`gneTraitMap` in `services/dnaDecoder.ts`), as a partial lookup:
`none` models an absent key (JS `undefined`). -/
def gneTraitMap : Char → Option String
  | 'H' => some "Honest"
  | 'C' => some "Compassionate"
  | 'K' => some "Kind"
  | 'G' => some "Generous"
  | 'L' => some "Loyal"
  | 'J' => some "Just"
  | 'M' => some "Merciful"
  | 'F' => some "Forgiving"
  | 'E' => some "Empathetic"
  | 'B' => some "Benevolent"
  | 'U' => some "Humble"
  | 'S' => some "Selfless"
  | 'I' => some "Integrity"
  | 'R' => some "Responsible"
  | 'T' => some "Tolerant"
  | 'A' => some "Fair"
  | 'D' => some "Devoted"
  | 'V' => some "Charitable"
  | 'Y' => some "Accountable"
  | 'X' => some "Virtuous"
  | _ => none

/-! ## JS number and string primitives used by the codec -/

/-- A JS `x >= n` comparison where `x` may be `NaN` (modelled by `none`):
`NaN >= n` is `false`. -/
def jsGe (x : Option Int) (n : Int) : Bool :=
  match x with
  | some v => n ≤ v
  | none => false

/-- Numeric value of a decimal digit character. -/
def digitVal (c : Char) : Nat := c.toNat - 48

/-- Value of a nonempty string of decimal digits. -/
def digitsVal (ds : List Char) : Nat :=
  ds.foldl (fun a c => 10 * a + digitVal c) 0

/-- The JS `\s` whitespace class (also the set trimmed by `parseInt` and
`String.prototype.trim`): space, tab, line terminators, and the Unicode
space separators. -/
def isJsSpace (c : Char) : Bool :=
  c == ' ' || c == '\t' || c == '\n' || c == '\x0b' || c == '\x0c' || c == '\r' ||
  c == '\u00A0' || c == '\u1680' ||
  (0x2000 ≤ c.toNat && c.toNat ≤ 0x200A) ||
  c == '\u2028' || c == '\u2029' || c == '\u202F' || c == '\u205F' ||
  c == '\u3000' || c == '\uFEFF'

/-- Leading decimal-digit run of a string, as a number; `none` when the
string has no leading digit. -/
def jsParseIntDigits (cs : List Char) : Option Nat :=
  let ds := cs.takeWhile Char.isDigit
  if ds.isEmpty then none else some (digitsVal ds)

/-- Model of JS `parseInt(s, 10)`: skip leading whitespace, read an optional
sign and then a run of decimal digits; `none` models `NaN`.
(JS computes the value as a float; all values arising in this program are far
below the 2^53 precision limit, so the exact integer is faithful.) -/
def jsParseInt (cs : List Char) : Option Int :=
  let t := cs.dropWhile isJsSpace
  match t with
  | '-' :: r => (jsParseIntDigits r).map (fun n => -(n : Int))
  | '+' :: r => (jsParseIntDigits r).map (fun n => (n : Int))
  | _ => (jsParseIntDigits t).map (fun n => (n : Int))

/-- Model of JS `parseInt(s[i], 10)` where `s[i]` is a single character or
`undefined`: `parseInt(undefined, 10)` is `NaN`. -/
def jsParseIntChar (c : Option Char) : Option Int :=
  match c with
  | none => none
  | some c => jsParseInt [c]

/-- Model of JS `String.prototype.split(',')`: splitting never yields an
empty list (`"".split(',')` is `[""]`). -/
def splitOnComma : List Char → List (List Char)
  | [] => [[]]
  | c :: cs =>
    if c = ',' then [] :: splitOnComma cs
    else
      match splitOnComma cs with
      | g :: gs => (c :: g) :: gs
      | [] => [[c]]

/-! ## The decoder's structural regex

`decodeDna` parses with the single regex `\((\d+)\/(\d+)\) (.*) - (.*)`
(no flags).  JS semantics: scan for the leftmost start position admitting a
match; `\d+` is greedy (and followed by a non-digit literal, so backtracking
is irrelevant); `.` matches anything but a line terminator; the two greedy
`(.*)` around the literal `" - "` make group 3 run to the *last* occurrence
of `" - "` within the current line and group 4 take the rest of that line. -/

/-- JS line terminators, which `.` does not match. -/
def isLineTerm (c : Char) : Bool :=
  c == '\n' || c == '\r' || c == '\u2028' || c == '\u2029'

/-- Helper for `splitLastSep`: recognise the literal `" - "` at the head of
`c :: cs`, returning what follows it. -/
def sepSplit (c : Char) (cs : List Char) : Option (List Char) :=
  match cs with
  | b :: d :: r => if c = ' ' ∧ b = '-' ∧ d = ' ' then some r else none
  | _ => none

/-- Split a (single-line) string at the *last* occurrence of `" - "`,
which is where the greedy `(.*) - (.*)` places the separator;
`none` when `" - "` does not occur. -/
def splitLastSep : List Char → Option (List Char × List Char)
  | [] => none
  | c :: cs =>
    match splitLastSep cs with
    | some (x, y) => some (c :: x, y)
    | none =>
      match sepSplit c cs with
      | some r => some ([], r)
      | none => none

/-- Attempt the DNA regex at one start position; on success return the four
captured groups. -/
def dnaMatchAt (cs : List Char) : Option (List Char × List Char × List Char × List Char) :=
  match cs with
  | '(' :: r0 =>
    let d1 := r0.takeWhile Char.isDigit
    let r1 := r0.dropWhile Char.isDigit
    if d1.isEmpty then none else
    match r1 with
    | '/' :: r2 =>
      let d2 := r2.takeWhile Char.isDigit
      let r3 := r2.dropWhile Char.isDigit
      if d2.isEmpty then none else
      match r3 with
      | ')' :: ' ' :: r4 =>
        let line := r4.takeWhile (fun c => !(isLineTerm c))
        match splitLastSep line with
        | some (g3, g4) => some (d1, d2, g3, g4)
        | none => none
      | _ => none
    | _ => none
  | _ => none

/-- Model of `dna.match(/\((\d+)\/(\d+)\) (.*) - (.*)/)`: try each start
position left to right and return the groups of the first match. -/
def dnaFindMatch : List Char → Option (List Char × List Char × List Char × List Char)
  | [] => none
  | c :: cs =>
    match dnaMatchAt (c :: cs) with
    | some r => some r
    | none => dnaFindMatch cs

/-! ## The decoder (`decodeDna` in `services/dnaDecoder.ts`) -/

/-- One decoded paired (LNC) trait. -/
structure PairedTrait where
  name : String
  score : Option Int
  intensity : Option Int
  influence : String
  pair : String
  deriving Repr, DecidableEq

/-- One decoded unpaired (GNE) trait. -/
structure UnpairedTrait where
  name : String
  score : Option Int
  strength : String
  deriving Repr, DecidableEq

/-- The decoded alignment header. The two averages come from `parseInt` on
the regex groups `(\d+)`, which always carry at least one digit, so they are
genuine integers (never `NaN`). -/
structure DnaAlignment where
  lnc : String
  gne : String
  lncScore : Int
  gneScore : Int
  deriving Repr, DecidableEq

/-- The decoder's result record (`DecodedDna` in `services/dnaDecoder.ts`). -/
structure DecodedDna where
  alignment : DnaAlignment
  pairedTraits : List PairedTrait
  unpairedTraits : List UnpairedTrait
  deriving Repr, DecidableEq

/-- Score-to-label bucketing for the Law/Chaos axis
(`getLncAlignment` in `services/dnaDecoder.ts`). -/
def getLncAlignment (score : Option Int) : String :=
  if jsGe score 7 then "Lawful"
  else if jsGe score 4 then "Neutral"
  else "Chaotic"

/-- Score-to-label bucketing for the Good/Evil axis
(`getGneAlignment` in `services/dnaDecoder.ts`). -/
def getGneAlignment (score : Option Int) : String :=
  if jsGe score 7 then "Good"
  else if jsGe score 4 then "Neutral"
  else "Evil"

/-- Score-to-strength bucketing for unpaired traits
(`getGneStrength` in `services/dnaDecoder.ts`). -/
def getGneStrength (score : Option Int) : String :=
  if jsGe score 7 then "Strong"
  else if jsGe score 4 then "Moderate"
  else "Weak/Opposite"

/-- The body of the decoder's `lncTraitsRaw.map((trait, index) => ...)`
callback.  `none` models the `TypeError` thrown by destructuring
`lncTraitKeys[index]` / `lncTraitMap[index]` when `index` is past the end
of the 20-entry tables; that exception is caught by `decodeDna`'s
`try`/`catch` and turned into a `null` result. -/
def decodePaired (trait : List Char) (index : Nat) : Option PairedTrait :=
  match lncTraitKeys[index]?, lncTraitMap[index]? with
  | some ks, some ns =>
    let score := jsParseIntChar trait[0]?
    let key := trait[1]?
    let intensity := jsParseIntChar trait[2]?
    some { name := if key = some ks.1 then ns.1 else ns.2,
           score := score,
           intensity := intensity,
           influence := getLncAlignment score,
           pair := ns.1 ++ " / " ++ ns.2 }
  | _, _ => none

/-- The body of the decoder's `gneTraitsRaw.map((trait) => ...)` callback;
this one cannot throw. -/
def decodeUnpaired (trait : List Char) : UnpairedTrait :=
  let key := trait[0]?
  let score := jsParseInt (trait.drop 1)
  { name := (key.bind gneTraitMap).getD "Unknown",
    score := score,
    strength := getGneStrength score }

/-- A `map` whose callback can throw: the whole map aborts (yields `none`)
as soon as one element does. -/
def mapPaired : List (Nat × List Char) → Option (List PairedTrait)
  | [] => some []
  | (i, t) :: rest =>
    match decodePaired t i, mapPaired rest with
    | some p, some ps => some (p :: ps)
    | _, _ => none

/-- Model of `decodeDna` (`services/dnaDecoder.ts`): match the structural
regex (`none` on no match), parse the two averages, split the two lists on
commas, decode each entry; any thrown exception (modelled by the `none`
branch of `mapPaired`) yields `none` instead of partial data. -/
def decodeDna (dna : String) : Option DecodedDna :=
  match dnaFindMatch dna.data with
  | none => none
  | some (lncAvg, gneAvg, lncPart, gnePart) =>
    let lncAverage : Int := digitsVal lncAvg
    let gneAverage : Int := digitsVal gneAvg
    let lncTraitsRaw := splitOnComma lncPart
    let gneTraitsRaw := splitOnComma gnePart
    match mapPaired lncTraitsRaw.enum with
    | none => none
    | some paired =>
      some { alignment := { lnc := getLncAlignment (some lncAverage),
                            gne := getGneAlignment (some gneAverage),
                            lncScore := lncAverage,
                            gneScore := gneAverage },
             pairedTraits := paired,
             unpairedTraits := gneTraitsRaw.map decodeUnpaired }

/-! ## The encoder (`generatePersonalityDna` in `services/dnaGenerator.ts`) -/

/-- Decimal representation of a natural number, as characters. -/
def natChars (n : Nat) : List Char := (Nat.repr n).data

/-- The encoder's first loop: for each trait pair, consume one coin flip
(`getRandomInt(0,1)`), one score (`getRandomInt(1,9)`) and one intensity
(`getRandomInt(1,5)`), emit the entry `` `${score}${chosenTrait}${intensity}` ``
and record the score.  Returns (entries, recorded scores). -/
def lncGen : List (Char × Char) → List Nat → List Nat → List Nat →
    List (List Char) × List Nat
  | p :: ps, c :: cs, s :: ss, i :: is =>
    let rest := lncGen ps cs ss is
    ((natChars s ++ (if c = 0 then p.1 else p.2) :: natChars i) :: rest.1,
     s :: rest.2)
  | _, _, _, _ => ([], [])

/-- The encoder's second loop: for each unpaired trait letter, consume one
score (`getRandomInt(1,9)`) and emit `` `${trait}${score}` ``. -/
def gneGen : List Char → List Nat → List (List Char) × List Nat
  | t :: ts, s :: ss =>
    let rest := gneGen ts ss
    ((t :: natChars s) :: rest.1, s :: rest.2)
  | _, _ => ([], [])

/-- Model of `Math.round(sum / len)` (half-up rounding; exact here, see the
header comment).  The encoder only ever calls it with `len = 20`. -/
def jsRoundDiv (sum len : Nat) : Nat := (2 * sum + len) / (2 * len)

/-- JS `array.join(',')` on a list of strings. -/
def joinComma : List (List Char) → List Char
  | [] => []
  | [e] => e
  | e :: e2 :: rest => e ++ ',' :: joinComma (e2 :: rest)

/-- Model of `generatePersonalityDna`: the randomness source is injected as
the four lists of pre-drawn values (coin flips, paired scores, intensities,
unpaired scores), consumed in program order. -/
def generatePersonalityDna (cs ss is gs : List Nat) : String :=
  let lnc := lncGen lncTraits cs ss is
  let gne := gneGen gneTraits gs
  let lncAverage := jsRoundDiv lnc.2.sum lnc.2.length
  let gneAverage := jsRoundDiv gne.2.sum gne.2.length
  ⟨'(' :: natChars lncAverage ++ '/' :: natChars gneAverage ++ ')' :: ' ' ::
    (joinComma lnc.1 ++ ' ' :: '-' :: ' ' :: joinComma gne.1)⟩

/-! ### Sanity checks on concrete values -/

example : natChars 5 = ['5'] := rfl

example : decodeDna "(5/5) 5B3 - H5" =
    some { alignment := { lnc := "Neutral", gne := "Neutral", lncScore := 5, gneScore := 5 },
           pairedTraits := [{ name := "Brave", score := some 5, intensity := some 3,
                              influence := "Neutral", pair := "Brave / Cowardly" }],
           unpairedTraits := [{ name := "Honest", score := some 5, strength := "Moderate" }] } := by
  rfl

example : decodeDna "garbage" = none := by rfl

/-! ## C3: bucketing boundaries -/

/-- C3 (counterexample): the claim asserts the unpaired trait strength
vocabulary is `Strong / Moderate / Weak`, with score 3 mapping to the low
label `"Weak"`.  The code's low label is the string `"Weak/Opposite"`:
at score 3, `getGneStrength` does not return `"Weak"`. -/
theorem bucketing_weak_label_counterexample :
    getGneStrength (some 3) = "Weak/Opposite" ∧ ¬ getGneStrength (some 3) = "Weak" := by
  constructor
  · rfl
  · decide

/-- C3 (amended): for every integer score 1–9, the paired-axis label is
`"Lawful"` iff the score is at least 7, `"Neutral"` iff it is between 4
and 6, and `"Chaotic"` iff it is at most 3; the unpaired average label is
likewise `"Good"`/`"Neutral"`/`"Evil"`; and the unpaired trait strength
label uses the vocabulary `"Strong"` (≥ 7) / `"Moderate"` (4–6) /
`"Weak/Opposite"` (≤ 3) — in particular score 7 maps to the high label,
score 6 to the mid label and score 3 to the low label in every vocabulary.
(The same functions are applied at every position, so the boundaries are
position-independent.) -/
theorem bucketing_boundaries (s : Int) (h1 : 1 ≤ s) (h9 : s ≤ 9) :
    (getLncAlignment (some s) = "Lawful" ↔ 7 ≤ s) ∧
    (getLncAlignment (some s) = "Neutral" ↔ 4 ≤ s ∧ s ≤ 6) ∧
    (getLncAlignment (some s) = "Chaotic" ↔ s ≤ 3) ∧
    (getGneAlignment (some s) = "Good" ↔ 7 ≤ s) ∧
    (getGneAlignment (some s) = "Neutral" ↔ 4 ≤ s ∧ s ≤ 6) ∧
    (getGneAlignment (some s) = "Evil" ↔ s ≤ 3) ∧
    (getGneStrength (some s) = "Strong" ↔ 7 ≤ s) ∧
    (getGneStrength (some s) = "Moderate" ↔ 4 ≤ s ∧ s ≤ 6) ∧
    (getGneStrength (some s) = "Weak/Opposite" ↔ s ≤ 3) := by
  interval_cases s <;> refine ⟨?_, ?_, ?_, ?_, ?_, ?_, ?_, ?_, ?_⟩ <;> decide

/-- C3 witness: the amended bucketing theorem applied at the boundary
score 7. -/
theorem bucketing_boundaries_witness :
    (1 : Int) ≤ 7 ∧ (7 : Int) ≤ 9 ∧
      (getLncAlignment (some 7) = "Lawful" ↔ 7 ≤ (7 : Int)) := by
  exact ⟨by decide, by decide, (bucketing_boundaries 7 (by decide) (by decide)).1⟩

/-! ## Structure lemmas about the decoder -/

/-- Junk paired trait used as a `getD` default. -/
def dummyPaired : PairedTrait :=
  { name := "", score := none, intensity := none, influence := "", pair := "" }

/-- Junk unpaired trait used as a `getD` default. -/
def dummyUnpaired : UnpairedTrait :=
  { name := "", score := none, strength := "" }

/-- Proof-side restatement of the record `decodePaired` builds at an
in-range index. -/
def pairedAt (t : List Char) (i : Nat) : PairedTrait :=
  { name := if t[1]? = some ((lncTraitKeys.getD i ('A', 'A')).1)
            then (lncTraitMap.getD i ("", "")).1
            else (lncTraitMap.getD i ("", "")).2,
    score := jsParseIntChar t[0]?,
    intensity := jsParseIntChar t[2]?,
    influence := getLncAlignment (jsParseIntChar t[0]?),
    pair := (lncTraitMap.getD i ("", "")).1 ++ " / " ++ (lncTraitMap.getD i ("", "")).2 }

lemma decodePaired_eq_some (t : List Char) (i : Nat) (h : i < 20) :
    decodePaired t i = some (pairedAt t i) := by
  interval_cases i <;> rfl

lemma decodePaired_eq_none (t : List Char) (i : Nat) (h : 20 ≤ i) :
    decodePaired t i = none := by
  have hk : lncTraitKeys[i]? = none :=
    List.getElem?_eq_none (by rw [show lncTraitKeys.length = 20 from rfl]; exact h)
  simp [decodePaired, hk]

/-- On an enumeration starting at `k` that stays within the 20-entry
tables, the exception-propagating map succeeds, with the `i`-th output
built from the `i`-th entry at absolute index `k + i`. -/
lemma mapPaired_enumFrom (l : List (List Char)) (k : Nat) (h : k + l.length ≤ 20) :
    ∃ ps, mapPaired (List.enumFrom k l) = some ps ∧ ps.length = l.length ∧
      ∀ i, i < l.length → ps.getD i dummyPaired = pairedAt (l.getD i []) (k + i) := by
  induction l generalizing k with
  | nil => exact ⟨[], rfl, rfl, fun i hi => absurd hi (by simp)⟩
  | cons t rest ih =>
    have hk : k < 20 := by simp at h; omega
    obtain ⟨ps, hps, hlen, hget⟩ := ih (k + 1) (by simp at h ⊢; omega)
    refine ⟨pairedAt t k :: ps, ?_, by simp [hlen], ?_⟩
    · show (match decodePaired t k, mapPaired (List.enumFrom (k + 1) rest) with
        | some p, some ps => some (p :: ps)
        | _, _ => none) = _
      rw [decodePaired_eq_some t k hk, hps]
    · intro i hi
      cases i with
      | zero => simp
      | succ n =>
        have hn : n < rest.length := by simp at hi; omega
        have := hget n hn
        rw [List.getD_cons_succ, List.getD_cons_succ, this]
        congr 1
        omega

/-- The exception-propagating map over an enumeration starting at `k`
throws exactly when some entry's absolute index reaches 20. -/
lemma mapPaired_enumFrom_none (l : List (List Char)) (k : Nat) :
    mapPaired (List.enumFrom k l) = none ↔ ∃ j, j < l.length ∧ 20 ≤ k + j := by
  induction l generalizing k with
  | nil =>
    simp only [List.enumFrom, mapPaired]
    constructor
    · intro h; cases h
    · rintro ⟨j, hj, -⟩; exact absurd hj (by simp)
  | cons t rest ih =>
    show (match decodePaired t k, mapPaired (List.enumFrom (k + 1) rest) with
      | some p, some ps => some (p :: ps)
      | _, _ => none) = none ↔ _
    by_cases hk : 20 ≤ k
    · rw [decodePaired_eq_none t k hk]
      constructor
      · intro _; exact ⟨0, by simp, by omega⟩
      · intro _; rfl
    · push_neg at hk
      rw [decodePaired_eq_some t k hk]
      cases hrest : mapPaired (List.enumFrom (k + 1) rest) with
      | none =>
        obtain ⟨j, hj, hj20⟩ := (ih (k + 1)).mp hrest
        constructor
        · intro _; exact ⟨j + 1, by simp; omega, by omega⟩
        · intro _; rfl
      | some ps =>
        constructor
        · intro h; cases h
        · rintro ⟨j, hj, hj20⟩
          have hj' : 1 ≤ j := by omega
          have : mapPaired (List.enumFrom (k + 1) rest) = none :=
            (ih (k + 1)).mpr ⟨j - 1, by simp at hj ⊢; omega, by omega⟩
          rw [hrest] at this
          cases this

/-- Shape of a successful decode: the regex matched and the paired map
did not throw. -/
lemma decodeDna_eq_some (dna : String) (g1 g2 g3 g4 : List Char)
    (hm : dnaFindMatch dna.data = some (g1, g2, g3, g4))
    (ps : List PairedTrait)
    (hps : mapPaired (List.enumFrom 0 (splitOnComma g3)) = some ps) :
    decodeDna dna = some
      { alignment := { lnc := getLncAlignment (some (digitsVal g1)),
                       gne := getGneAlignment (some (digitsVal g2)),
                       lncScore := digitsVal g1,
                       gneScore := digitsVal g2 },
        pairedTraits := ps,
        unpairedTraits := (splitOnComma g4).map decodeUnpaired } := by
  simp only [decodeDna, hm]
  rw [show (splitOnComma g3).enum = List.enumFrom 0 (splitOnComma g3) from rfl, hps]

lemma getD_map {α β : Type} (f : α → β) (l : List α) (j : Nat) (hj : j < l.length)
    (d0 : β) (d1 : α) : (l.map f).getD j d0 = f (l.getD j d1) := by
  induction l generalizing j with
  | nil => exact absurd hj (by simp)
  | cons a as ih =>
    cases j with
    | zero => simp
    | succ n => simp only [List.map_cons, List.getD_cons_succ]; exact ih n (by simp at hj; omega)

/-! ## C4: all-or-nothing decode -/

/-- C4: for every input string, `decodeDna` returns `none` exactly when the
structural regex does not match, or when (inside the `try`) the paired list
has more than 20 entries, so that destructuring `lncTraitKeys[index]` throws
and the `catch` yields `null`.  In every other case a complete `DecodedDna`
is returned; the embedding is a total function into `Option DecodedDna`, so
no exception ever propagates and no partial data is ever returned. -/
theorem decode_all_or_nothing (dna : String) :
    decodeDna dna = none ↔
      (dnaFindMatch dna.data = none ∨
        ∃ g1 g2 g3 g4 : List Char, dnaFindMatch dna.data = some (g1, g2, g3, g4) ∧
          20 < (splitOnComma g3).length) := by
  cases hm : dnaFindMatch dna.data with
  | none => simp [decodeDna, hm]
  | some g =>
    obtain ⟨g1, g2, g3, g4⟩ := g
    constructor
    · intro hnone
      simp only [decodeDna, hm] at hnone
      cases hmp : mapPaired (List.enumFrom 0 (splitOnComma g3)) with
      | none =>
        obtain ⟨j, hj, hj20⟩ := (mapPaired_enumFrom_none (splitOnComma g3) 0).mp hmp
        exact Or.inr ⟨g1, g2, g3, g4, rfl, by omega⟩
      | some ps =>
        rw [show (splitOnComma g3).enum = List.enumFrom 0 (splitOnComma g3) from rfl, hmp]
          at hnone
        cases hnone
    · rintro (h | ⟨h1, h2, h3, h4, heq, hlen⟩)
      · cases h
      · obtain ⟨rfl, rfl, rfl, rfl⟩ : g1 = h1 ∧ g2 = h2 ∧ g3 = h3 ∧ g4 = h4 := by
          injection heq with h'; injection h' with a b; injection b with c d
          injection d with e f
          exact ⟨a, c, e, f⟩
        have : mapPaired (List.enumFrom 0 (splitOnComma g3)) = none :=
          (mapPaired_enumFrom_none (splitOnComma g3) 0).mpr ⟨20, by omega, by omega⟩
        simp only [decodeDna, hm]
        rw [show (splitOnComma g3).enum = List.enumFrom 0 (splitOnComma g3) from rfl, this]

/-! ## C2: position-over-letter disambiguation -/

/-- C2: for every DNA string accepted by the structural regex whose paired
list stays within the 20-entry tables, the decoder assigns the `i`-th
paired trait's name by comparing the entry's letter (its second character)
against the two letters of the key table *at position `i`*: the first name
of position `i` when the letter equals that position's first letter, and
the second name otherwise.  Positions sharing a letter code (such as `'B'`
at positions 0 and 12) therefore decode to their own position's names. -/
theorem paired_position_over_letter (dna : String) (g1 g2 g3 g4 : List Char)
    (hm : dnaFindMatch dna.data = some (g1, g2, g3, g4))
    (hlen : (splitOnComma g3).length ≤ 20)
    (i : Nat) (hi : i < (splitOnComma g3).length) :
    ∃ d, decodeDna dna = some d ∧
      d.pairedTraits.length = (splitOnComma g3).length ∧
      (d.pairedTraits.getD i dummyPaired).name =
        (if ((splitOnComma g3).getD i [])[1]? = some ((lncTraitKeys.getD i ('A', 'A')).1)
         then (lncTraitMap.getD i ("", "")).1
         else (lncTraitMap.getD i ("", "")).2) := by
  obtain ⟨ps, hps, hpslen, hget⟩ := mapPaired_enumFrom (splitOnComma g3) 0 (by omega)
  refine ⟨_, decodeDna_eq_some dna g1 g2 g3 g4 hm ps hps, hpslen, ?_⟩
  have hgi := hget i hi
  rw [Nat.zero_add] at hgi
  show (ps.getD i dummyPaired).name = _
  rw [hgi]
  rfl

/-- C2 witness: a 13-entry paired list whose entries 0 and 12 both carry
the letter `'B'`; position 12's `'B'` is compared against position 12's
key pair `("Z", "B")`, hence decodes to `"Blunt"`, not to position 0's
`"Brave"`. -/
theorem paired_position_over_letter_witness :
    (splitOnComma ("5B3,4O2,1L1,1F1,1S1,1P1,1D1,1G1,1Y1,1E1,1N1,1K1,5B3").data).length ≤ 20 ∧
    (∃ d, decodeDna "(5/5) 5B3,4O2,1L1,1F1,1S1,1P1,1D1,1G1,1Y1,1E1,1N1,1K1,5B3 - H5" = some d ∧
      d.pairedTraits.length =
        (splitOnComma ("5B3,4O2,1L1,1F1,1S1,1P1,1D1,1G1,1Y1,1E1,1N1,1K1,5B3").data).length ∧
      (d.pairedTraits.getD 12 dummyPaired).name =
        (if ((splitOnComma ("5B3,4O2,1L1,1F1,1S1,1P1,1D1,1G1,1Y1,1E1,1N1,1K1,5B3").data).getD
              12 [])[1]? = some ((lncTraitKeys.getD 12 ('A', 'A')).1)
         then (lncTraitMap.getD 12 ("", "")).1
         else (lncTraitMap.getD 12 ("", "")).2)) :=
  ⟨by decide,
   paired_position_over_letter
     "(5/5) 5B3,4O2,1L1,1F1,1S1,1P1,1D1,1G1,1Y1,1E1,1N1,1K1,5B3 - H5"
     (['5']) (['5'])
     (("5B3,4O2,1L1,1F1,1S1,1P1,1D1,1G1,1Y1,1E1,1N1,1K1,5B3").data)
     (("H5").data)
     (by rfl) (by decide) 12 (by decide)⟩

/-! ## C10: unknown unpaired letters decode to a placeholder -/

/-- C10: for every input accepted by the structural regex whose paired list
stays within the tables, an unpaired entry whose leading letter is missing
from the GNE trait table (or whose entry is empty) does not make `decodeDna`
fail: the decode succeeds, and that entry's trait has the placeholder name
`"Unknown"` with score and strength still computed from the entry's digits
(`parseInt` of everything after the first character). -/
theorem unpaired_unknown_placeholder (dna : String) (g1 g2 g3 g4 : List Char)
    (hm : dnaFindMatch dna.data = some (g1, g2, g3, g4))
    (hlen : (splitOnComma g3).length ≤ 20)
    (j : Nat) (hj : j < (splitOnComma g4).length)
    (hum : ∀ c : Char, ((splitOnComma g4).getD j [])[0]? = some c → gneTraitMap c = none) :
    ∃ d, decodeDna dna = some d ∧
      d.unpairedTraits.length = (splitOnComma g4).length ∧
      (d.unpairedTraits.getD j dummyUnpaired).name = "Unknown" ∧
      (d.unpairedTraits.getD j dummyUnpaired).score =
        jsParseInt (((splitOnComma g4).getD j []).drop 1) ∧
      (d.unpairedTraits.getD j dummyUnpaired).strength =
        getGneStrength (jsParseInt (((splitOnComma g4).getD j []).drop 1)) := by
  obtain ⟨ps, hps, hpslen, hget⟩ := mapPaired_enumFrom (splitOnComma g3) 0 (by omega)
  refine ⟨_, decodeDna_eq_some dna g1 g2 g3 g4 hm ps hps, ?_, ?_, ?_, ?_⟩
  · show ((splitOnComma g4).map decodeUnpaired).length = _
    simp
  · show (((splitOnComma g4).map decodeUnpaired).getD j dummyUnpaired).name = "Unknown"
    rw [getD_map decodeUnpaired (splitOnComma g4) j hj dummyUnpaired []]
    show ((((splitOnComma g4).getD j [])[0]?).bind gneTraitMap).getD "Unknown" = "Unknown"
    cases hc : ((splitOnComma g4).getD j [])[0]? with
    | none => rfl
    | some c => simp [hum c hc]
  · show (((splitOnComma g4).map decodeUnpaired).getD j dummyUnpaired).score = _
    rw [getD_map decodeUnpaired (splitOnComma g4) j hj dummyUnpaired []]
    rfl
  · show (((splitOnComma g4).map decodeUnpaired).getD j dummyUnpaired).strength = _
    rw [getD_map decodeUnpaired (splitOnComma g4) j hj dummyUnpaired []]
    rfl

/-- C10 witness: decoding `"(5/5) 5B3 - Q9"`.  The letter `'Q'` is not
among the 20 GNE trait letters, yet the decode succeeds and returns the
placeholder name `"Unknown"` with the score and strength taken from the
digits. -/
theorem unpaired_unknown_placeholder_witness :
    (splitOnComma ("5B3").data).length ≤ 20 ∧
    (∃ d, decodeDna "(5/5) 5B3 - Q9" = some d ∧
      d.unpairedTraits.length = (splitOnComma ("Q9").data).length ∧
      (d.unpairedTraits.getD 0 dummyUnpaired).name = "Unknown" ∧
      (d.unpairedTraits.getD 0 dummyUnpaired).score =
        jsParseInt (((splitOnComma ("Q9").data).getD 0 []).drop 1) ∧
      (d.unpairedTraits.getD 0 dummyUnpaired).strength =
        getGneStrength (jsParseInt (((splitOnComma ("Q9").data).getD 0 []).drop 1))) :=
  ⟨by decide,
   unpaired_unknown_placeholder "(5/5) 5B3 - Q9" (['5']) (['5']) (("5B3").data) (("Q9").data)
     (by rfl) (by decide) 0 (by decide)
     (fun c hc => by
       have h2 : (some 'Q' : Option Char) = some c := hc
       obtain rfl : 'Q' = c := by injection h2
       rfl)⟩

/-! ## Encoder round-trip machinery

Characters appearing in encoder output are classified: `plainChar` (not a
space, not a line terminator) suffices for the matched line; entry bodies
are additionally comma-free (`entryOk`). -/

/-- Characters safe inside the regex-matched line. -/
def plainChar (c : Char) : Bool := !(c == ' ') && !(isLineTerm c)

/-- Characters that may appear inside a single DNA entry. -/
def entryOk (c : Char) : Bool := plainChar c && !(c == ',')

lemma entryOk_plain {c : Char} (h : entryOk c = true) : plainChar c = true := by
  cases hp : plainChar c with
  | true => rfl
  | false => rw [entryOk, hp] at h; simp at h

lemma entryOk_not_comma {c : Char} (h : entryOk c = true) : ¬ c = ',' := by
  intro hc
  subst hc
  exact absurd h (by decide)

lemma plain_not_space {c : Char} (h : plainChar c = true) : ¬ c = ' ' := by
  intro hc
  subst hc
  exact absurd h (by decide)

lemma plain_not_term {c : Char} (h : plainChar c = true) : isLineTerm c = false := by
  cases hl : isLineTerm c with
  | false => rfl
  | true => rw [plainChar, hl] at h; simp at h

/-- A score in 1–9 prints as a single digit character that is entry-safe,
parses back to itself, and has itself as digit value. -/
lemma natChars_single (s : Nat) (h1 : 1 ≤ s) (h9 : s ≤ 9) :
    ∃ c : Char, natChars s = [c] ∧ entryOk c = true ∧ c.isDigit = true ∧
      digitVal c = s ∧ jsParseIntChar (some c) = some (s : Int) ∧
      jsParseInt [c] = some (s : Int) := by
  interval_cases s <;> exact ⟨_, rfl, by decide, by decide, by decide, by decide, by decide⟩

lemma lncTraits_chars : ∀ p ∈ lncTraits, entryOk p.1 = true ∧ entryOk p.2 = true := by decide

lemma gneTraits_chars : ∀ t ∈ gneTraits, entryOk t = true := by decide

lemma lncTraits_eq_keys : lncTraits = lncTraitKeys := rfl

lemma lncKeys_fst_ne_snd (i : Nat) (hi : i < 20) :
    (lncTraitKeys.getD i ('A', 'A')).1 ≠ (lncTraitKeys.getD i ('A', 'A')).2 := by
  interval_cases i <;> decide

/-! ### Splitting on commas undoes `join(',')` for comma-free entries -/

lemma splitOnComma_no_comma (l : List Char) (h : ∀ c ∈ l, ¬ c = ',') :
    splitOnComma l = [l] := by
  induction l with
  | nil => rfl
  | cons c cs ih =>
    have hc : ¬ c = ',' := h c (by simp)
    have := ih (fun x hx => h x (by simp [hx]))
    simp only [splitOnComma, if_neg hc, this]

lemma splitOnComma_append (l1 rest : List Char) (h1 : ∀ c ∈ l1, ¬ c = ',') :
    splitOnComma (l1 ++ ',' :: rest) = l1 :: splitOnComma rest := by
  induction l1 with
  | nil => simp [splitOnComma]
  | cons a l1' ih =>
    have ha : ¬ a = ',' := h1 a (by simp)
    have hrec := ih (fun x hx => h1 x (by simp [hx]))
    show splitOnComma (a :: (l1' ++ ',' :: rest)) = (a :: l1') :: splitOnComma rest
    simp only [splitOnComma, if_neg ha, hrec]

lemma splitOnComma_joinComma (es : List (List Char)) (hne : es ≠ [])
    (h : ∀ e ∈ es, ∀ c ∈ e, ¬ c = ',') : splitOnComma (joinComma es) = es := by
  induction es with
  | nil => exact absurd rfl hne
  | cons e rest ih =>
    cases rest with
    | nil => exact splitOnComma_no_comma e (h e (by simp))
    | cons e2 rest2 =>
      rw [show joinComma (e :: e2 :: rest2) = e ++ ',' :: joinComma (e2 :: rest2) from rfl,
          splitOnComma_append e _ (h e (by simp)),
          ih (by simp) (fun x hx c hc => h x (by simp [hx]) c hc)]

lemma joinComma_chars (es : List (List Char)) (h : ∀ e ∈ es, ∀ c ∈ e, entryOk c = true) :
    ∀ c ∈ joinComma es, plainChar c = true := by
  induction es with
  | nil => simp [joinComma]
  | cons e rest ih =>
    cases rest with
    | nil => exact fun c hc => entryOk_plain (h e (by simp) c hc)
    | cons e2 r2 =>
      intro c hc
      rw [show joinComma (e :: e2 :: r2) = e ++ ',' :: joinComma (e2 :: r2) from rfl] at hc
      rcases List.mem_append.mp hc with h1 | h2
      · exact entryOk_plain (h e (by simp) c h1)
      · rcases List.mem_cons.mp h2 with rfl | h3
        · decide
        · exact ih (fun x hx c' hc' => h x (by simp [hx]) c' hc') c h3

/-! ### The greedy `(.*) - (.*)` split on separator-free sides -/

lemma splitLastSep_cons (c : Char) (cs : List Char) :
    splitLastSep (c :: cs) =
      (match splitLastSep cs with
       | some (x, y) => some (c :: x, y)
       | none =>
         match sepSplit c cs with
         | some r => some ([], r)
         | none => none) := rfl

lemma sepSplit_not_space (c : Char) (cs : List Char) (h : ¬ c = ' ') :
    sepSplit c cs = none := by
  unfold sepSplit
  cases cs with
  | nil => rfl
  | cons b t =>
    cases t with
    | nil => rfl
    | cons d r => exact if_neg (fun hx => h hx.1)

lemma sepSplit_space_none (l2 : List Char) (h : ∀ c ∈ l2, ¬ c = ' ') :
    sepSplit ' ' l2 = none := by
  unfold sepSplit
  cases l2 with
  | nil => rfl
  | cons b t =>
    cases t with
    | nil => rfl
    | cons d r => exact if_neg (fun hx => h d (by simp) hx.2.2)

lemma splitLastSep_none (l : List Char) (h : ∀ c ∈ l, ¬ c = ' ') :
    splitLastSep l = none := by
  induction l with
  | nil => rfl
  | cons c cs ih =>
    rw [splitLastSep_cons, ih (fun x hx => h x (by simp [hx])),
        sepSplit_not_space c cs (h c (by simp))]

lemma splitLastSep_append (l1 l2 : List Char) (h1 : ∀ c ∈ l1, ¬ c = ' ')
    (h2 : ∀ c ∈ l2, ¬ c = ' ') :
    splitLastSep (l1 ++ ' ' :: '-' :: ' ' :: l2) = some (l1, l2) := by
  induction l1 with
  | nil =>
    have e2 : splitLastSep l2 = none := splitLastSep_none l2 h2
    have e1 : splitLastSep (' ' :: l2) = none := by
      rw [splitLastSep_cons, e2, sepSplit_space_none l2 h2]
    have e0 : splitLastSep ('-' :: ' ' :: l2) = none := by
      rw [splitLastSep_cons, e1, sepSplit_not_space '-' (' ' :: l2) (by decide)]
    show splitLastSep (' ' :: '-' :: ' ' :: l2) = some ([], l2)
    rw [splitLastSep_cons, e0]
    rfl
  | cons a l1' ih =>
    have hrec := ih (fun x hx => h1 x (by simp [hx]))
    show splitLastSep (a :: (l1' ++ ' ' :: '-' :: ' ' :: l2)) = some (a :: l1', l2)
    rw [splitLastSep_cons, hrec]

/-! ### The structural regex on well-formed encoder output -/

/-- On a string of the exact shape the encoder emits — `(` digit `/` digit
`) `, then a line of space-free, terminator-free characters around a single
`" - "` — the regex matches at position 0 with the four expected groups. -/
lemma dnaMatchAt_encoder (dA dB : Char) (hA : dA.isDigit = true) (hB : dB.isDigit = true)
    (l1 l2 : List Char) (h1 : ∀ c ∈ l1, plainChar c = true)
    (h2 : ∀ c ∈ l2, plainChar c = true) :
    dnaMatchAt ('(' :: dA :: '/' :: dB :: ')' :: ' ' :: (l1 ++ ' ' :: '-' :: ' ' :: l2)) =
      some ([dA], [dB], l1, l2) := by
  have hR : ∀ c ∈ l1 ++ ' ' :: '-' :: ' ' :: l2, (!(isLineTerm c)) = true := by
    intro x hx
    rcases List.mem_append.mp hx with hx1 | hx2
    · simp [plain_not_term (h1 x hx1)]
    · rcases List.mem_cons.mp hx2 with rfl | hx3
      · decide
      · rcases List.mem_cons.mp hx3 with rfl | hx4
        · decide
        · rcases List.mem_cons.mp hx4 with rfl | hx5
          · decide
          · simp [plain_not_term (h2 x hx5)]
  have hline : List.takeWhile (fun c => !(isLineTerm c)) (l1 ++ ' ' :: '-' :: ' ' :: l2)
      = l1 ++ ' ' :: '-' :: ' ' :: l2 := List.takeWhile_eq_self_iff.mpr hR
  have hsplit := splitLastSep_append l1 l2 (fun c hc => plain_not_space (h1 c hc))
      (fun c hc => plain_not_space (h2 c hc))
  have hslash : ('/' : Char).isDigit = false := by decide
  have hparen : (')' : Char).isDigit = false := by decide
  have hspace : (' ' : Char).isDigit = false := by decide
  simp only [dnaMatchAt, List.takeWhile_cons, List.dropWhile_cons, hA, hB, hslash, hparen,
    hspace, if_true, if_false, List.takeWhile_nil, List.isEmpty_cons, Bool.false_eq_true,
    ite_true, ite_false, hline, hsplit]

/-- The scan of `String.match` stops at the first matching position. -/
lemma dnaFindMatch_of_head (c : Char) (cs : List Char)
    (r : List Char × List Char × List Char × List Char)
    (h : dnaMatchAt (c :: cs) = some r) : dnaFindMatch (c :: cs) = some r := by
  simp only [dnaFindMatch, h]

/-! ### Structure of the encoder's loops -/

lemma lncGen_snd (keys : List (Char × Char)) : ∀ (cs ss is : List Nat),
    keys.length = cs.length → keys.length = ss.length → keys.length = is.length →
    (lncGen keys cs ss is).2 = ss := by
  induction keys with
  | nil =>
    intro cs ss is _ h2 _
    obtain rfl : ss = [] := List.length_eq_zero.mp h2.symm
    cases cs <;> cases is <;> rfl
  | cons p ps ih =>
    intro cs ss is h1 h2 h3
    cases cs with
    | nil => simp at h1
    | cons c cs' =>
      cases ss with
      | nil => simp at h2
      | cons s ss' =>
        cases is with
        | nil => simp at h3
        | cons t is' =>
          show s :: (lncGen ps cs' ss' is').2 = s :: ss'
          rw [ih cs' ss' is' (by simpa using h1) (by simpa using h2) (by simpa using h3)]

lemma lncGen_fst_length (keys : List (Char × Char)) : ∀ (cs ss is : List Nat),
    keys.length = cs.length → keys.length = ss.length → keys.length = is.length →
    (lncGen keys cs ss is).1.length = keys.length := by
  induction keys with
  | nil => intro cs ss is _ _ _; cases cs <;> cases ss <;> cases is <;> rfl
  | cons p ps ih =>
    intro cs ss is h1 h2 h3
    cases cs with
    | nil => simp at h1
    | cons c cs' =>
      cases ss with
      | nil => simp at h2
      | cons s ss' =>
        cases is with
        | nil => simp at h3
        | cons t is' =>
          show (lncGen ps cs' ss' is').1.length + 1 = ps.length + 1
          rw [ih cs' ss' is' (by simpa using h1) (by simpa using h2) (by simpa using h3)]

lemma lncGen_fst_getD (keys : List (Char × Char)) : ∀ (cs ss is : List Nat) (i : Nat),
    keys.length = cs.length → keys.length = ss.length → keys.length = is.length →
    i < keys.length →
    (lncGen keys cs ss is).1.getD i [] =
      natChars (ss.getD i 0) ++
        (if cs.getD i 0 = 0 then (keys.getD i ('A', 'A')).1 else (keys.getD i ('A', 'A')).2)
        :: natChars (is.getD i 0) := by
  induction keys with
  | nil => intro cs ss is i _ _ _ hi; simp at hi
  | cons p ps ih =>
    intro cs ss is i h1 h2 h3 hi
    cases cs with
    | nil => simp at h1
    | cons c cs' =>
      cases ss with
      | nil => simp at h2
      | cons s ss' =>
        cases is with
        | nil => simp at h3
        | cons t is' =>
          cases i with
          | zero => rfl
          | succ n =>
            show (lncGen ps cs' ss' is').1.getD n [] = _
            rw [ih cs' ss' is' n (by simpa using h1) (by simpa using h2) (by simpa using h3)
                (by simpa using hi)]
            rfl

lemma lncGen_fst_chars (keys : List (Char × Char)) : ∀ (cs ss is : List Nat),
    (∀ p ∈ keys, entryOk p.1 = true ∧ entryOk p.2 = true) →
    (∀ s ∈ ss, 1 ≤ s ∧ s ≤ 9) → (∀ t ∈ is, 1 ≤ t ∧ t ≤ 5) →
    ∀ e ∈ (lncGen keys cs ss is).1, ∀ c ∈ e, entryOk c = true := by
  induction keys with
  | nil =>
    intro cs ss is _ _ _ e he
    cases cs <;> cases ss <;> cases is <;> exact absurd he (List.not_mem_nil e)
  | cons p ps ih =>
    intro cs ss is hk hs ht e he
    cases cs with
    | nil => cases ss <;> cases is <;> exact absurd he (List.not_mem_nil e)
    | cons c0 cs' =>
      cases ss with
      | nil => cases is <;> exact absurd he (List.not_mem_nil e)
      | cons s ss' =>
        cases is with
        | nil => exact absurd he (List.not_mem_nil e)
        | cons t is' =>
          rcases List.mem_cons.mp he with rfl | he'
          · intro ch hch
            obtain ⟨ds, hds, hok, -, -, -, -⟩ := natChars_single s (hs s (by simp)).1
              (hs s (by simp)).2
            obtain ⟨dt, hdt, hok2, -, -, -, -⟩ := natChars_single t (ht t (by simp)).1
              (by have := (ht t (by simp)).2; omega)
            rw [hds, hdt] at hch
            rcases List.mem_append.mp hch with hc1 | hc2
            · rw [List.mem_singleton.mp hc1]; exact hok
            · rcases List.mem_cons.mp hc2 with rfl | hc3
              · by_cases hc0 : c0 = 0
                · rw [if_pos hc0]; exact (hk p (by simp)).1
                · rw [if_neg hc0]; exact (hk p (by simp)).2
              · rw [List.mem_singleton.mp hc3]; exact hok2
          · exact ih cs' ss' is' (fun q hq => hk q (by simp [hq]))
              (fun x hx => hs x (by simp [hx])) (fun x hx => ht x (by simp [hx])) e he'

lemma gneGen_snd (ts : List Char) : ∀ (gs : List Nat),
    ts.length = gs.length → (gneGen ts gs).2 = gs := by
  induction ts with
  | nil =>
    intro gs h
    obtain rfl : gs = [] := List.length_eq_zero.mp h.symm
    rfl
  | cons t ts' ih =>
    intro gs h
    cases gs with
    | nil => simp at h
    | cons g gs' =>
      show g :: (gneGen ts' gs').2 = g :: gs'
      rw [ih gs' (by simpa using h)]

lemma gneGen_fst_length (ts : List Char) : ∀ (gs : List Nat),
    ts.length = gs.length → (gneGen ts gs).1.length = ts.length := by
  induction ts with
  | nil => intro gs _; cases gs <;> rfl
  | cons t ts' ih =>
    intro gs h
    cases gs with
    | nil => simp at h
    | cons g gs' =>
      show (gneGen ts' gs').1.length + 1 = ts'.length + 1
      rw [ih gs' (by simpa using h)]

lemma gneGen_fst_getD (ts : List Char) : ∀ (gs : List Nat) (j : Nat),
    ts.length = gs.length → j < ts.length →
    (gneGen ts gs).1.getD j [] = ts.getD j ' ' :: natChars (gs.getD j 0) := by
  induction ts with
  | nil => intro gs j _ hj; simp at hj
  | cons t ts' ih =>
    intro gs j h hj
    cases gs with
    | nil => simp at h
    | cons g gs' =>
      cases j with
      | zero => rfl
      | succ n =>
        show (gneGen ts' gs').1.getD n [] = _
        rw [ih gs' n (by simpa using h) (by simpa using hj)]
        rfl

lemma gneGen_fst_chars (ts : List Char) : ∀ (gs : List Nat),
    (∀ t ∈ ts, entryOk t = true) → (∀ g ∈ gs, 1 ≤ g ∧ g ≤ 9) →
    ∀ e ∈ (gneGen ts gs).1, ∀ c ∈ e, entryOk c = true := by
  induction ts with
  | nil =>
    intro gs _ _ e he
    cases gs <;> exact absurd he (List.not_mem_nil e)
  | cons t ts' ih =>
    intro gs hts hgs e he
    cases gs with
    | nil => exact absurd he (List.not_mem_nil e)
    | cons g gs' =>
      rcases List.mem_cons.mp he with rfl | he'
      · intro ch hch
        obtain ⟨dg, hdg, hok, -, -, -, -⟩ := natChars_single g (hgs g (by simp)).1
          (hgs g (by simp)).2
        rw [hdg] at hch
        rcases List.mem_cons.mp hch with rfl | hc2
        · exact hts _ (by simp)
        · rw [List.mem_singleton.mp hc2]; exact hok
      · exact ih gs' (fun x hx => hts x (by simp [hx])) (fun x hx => hgs x (by simp [hx])) e he'

/-- Score lists drawn from 1–9 have sums between the length and 9 times
the length (used to bound the rounded averages). -/
lemma score_sum_bounds (l : List Nat) (h : ∀ x ∈ l, 1 ≤ x ∧ x ≤ 9) :
    l.length ≤ l.sum ∧ l.sum ≤ 9 * l.length := by
  induction l with
  | nil => simp
  | cons a as ih =>
    obtain ⟨h1, h2⟩ := h a (by simp)
    obtain ⟨ih1, ih2⟩ := ih (fun x hx => h x (by simp [hx]))
    simp only [List.length_cons, List.sum_cons]
    omega

lemma digitsVal_single (c : Char) : digitsVal [c] = digitVal c := by
  simp [digitsVal]

/-! ### Expected decode results for encoder output -/

/-- The paired-trait list a lossless round-trip must produce, spelled out
from the drawn randomness: entry `i` (at absolute position `k + i`) carries
the drawn score and intensity, and the name selected by the coin flip. -/
def expectedPaired : Nat → List Nat → List Nat → List Nat → List PairedTrait
  | k, c :: cs, s :: ss, t :: ts =>
    { name := if c = 0 then (lncTraitMap.getD k ("", "")).1 else (lncTraitMap.getD k ("", "")).2,
      score := some (s : Int), intensity := some (t : Int),
      influence := getLncAlignment (some (s : Int)),
      pair := (lncTraitMap.getD k ("", "")).1 ++ " / " ++ (lncTraitMap.getD k ("", "")).2 }
      :: expectedPaired (k + 1) cs ss ts
  | _, _, _, _ => []

/-- The unpaired-trait list a lossless round-trip must produce. -/
def expectedUnpaired : List Char → List Nat → List UnpairedTrait
  | t :: ts, g :: gs =>
    { name := (gneTraitMap t).getD "Unknown", score := some (g : Int),
      strength := getGneStrength (some (g : Int)) } :: expectedUnpaired ts gs
  | _, _ => []

lemma expectedPaired_length : ∀ (k : Nat) (cs ss ts : List Nat),
    cs.length = ss.length → cs.length = ts.length →
    (expectedPaired k cs ss ts).length = cs.length := by
  intro k cs
  induction cs generalizing k with
  | nil => intro ss ts h1 h2; cases ss <;> cases ts <;> rfl
  | cons c cs' ih =>
    intro ss ts h1 h2
    cases ss with
    | nil => simp at h1
    | cons s ss' =>
      cases ts with
      | nil => simp at h2
      | cons t ts' =>
        show (expectedPaired (k + 1) cs' ss' ts').length + 1 = cs'.length + 1
        rw [ih (k + 1) ss' ts' (by simpa using h1) (by simpa using h2)]

lemma expectedPaired_getD : ∀ (k : Nat) (cs ss ts : List Nat) (i : Nat),
    cs.length = ss.length → cs.length = ts.length → i < cs.length →
    (expectedPaired k cs ss ts).getD i dummyPaired =
      { name := if cs.getD i 0 = 0 then (lncTraitMap.getD (k + i) ("", "")).1
                else (lncTraitMap.getD (k + i) ("", "")).2,
        score := some ((ss.getD i 0 : Nat) : Int),
        intensity := some ((ts.getD i 0 : Nat) : Int),
        influence := getLncAlignment (some ((ss.getD i 0 : Nat) : Int)),
        pair := (lncTraitMap.getD (k + i) ("", "")).1 ++ " / " ++
          (lncTraitMap.getD (k + i) ("", "")).2 } := by
  intro k cs
  induction cs generalizing k with
  | nil => intro ss ts i _ _ hi; simp at hi
  | cons c cs' ih =>
    intro ss ts i h1 h2 hi
    cases ss with
    | nil => simp at h1
    | cons s ss' =>
      cases ts with
      | nil => simp at h2
      | cons t ts' =>
        cases i with
        | zero => rfl
        | succ n =>
          show (expectedPaired (k + 1) cs' ss' ts').getD n dummyPaired = _
          rw [ih (k + 1) ss' ts' n (by simpa using h1) (by simpa using h2) (by simpa using hi)]
          have : k + 1 + n = k + (n + 1) := by omega
          rw [this]
          rfl

lemma expectedUnpaired_length : ∀ (ts : List Char) (gs : List Nat),
    ts.length = gs.length → (expectedUnpaired ts gs).length = ts.length := by
  intro ts
  induction ts with
  | nil => intro gs _; cases gs <;> rfl
  | cons t ts' ih =>
    intro gs h
    cases gs with
    | nil => simp at h
    | cons g gs' =>
      show (expectedUnpaired ts' gs').length + 1 = ts'.length + 1
      rw [ih gs' (by simpa using h)]

lemma expectedUnpaired_getD : ∀ (ts : List Char) (gs : List Nat) (j : Nat),
    ts.length = gs.length → j < ts.length →
    (expectedUnpaired ts gs).getD j dummyUnpaired =
      { name := (gneTraitMap (ts.getD j ' ')).getD "Unknown",
        score := some ((gs.getD j 0 : Nat) : Int),
        strength := getGneStrength (some ((gs.getD j 0 : Nat) : Int)) } := by
  intro ts
  induction ts with
  | nil => intro gs j _ hj; simp at hj
  | cons t ts' ih =>
    intro gs j h hj
    cases gs with
    | nil => simp at h
    | cons g gs' =>
      cases j with
      | zero => rfl
      | succ n =>
        show (expectedUnpaired ts' gs').getD n dummyUnpaired = _
        rw [ih gs' n (by simpa using h) (by simpa using hj)]
        rfl

/-- Decoding one well-formed paired entry at an in-range position recovers
the drawn score, intensity and chosen side. -/
lemma pairedAt_entry (i : Nat) (hi : i < 20) (c s t : Nat)
    (hs1 : 1 ≤ s) (hs9 : s ≤ 9) (ht1 : 1 ≤ t) (ht5 : t ≤ 5) :
    pairedAt (natChars s ++
        (if c = 0 then (lncTraitKeys.getD i ('A', 'A')).1
         else (lncTraitKeys.getD i ('A', 'A')).2) :: natChars t) i =
      { name := if c = 0 then (lncTraitMap.getD i ("", "")).1
                else (lncTraitMap.getD i ("", "")).2,
        score := some (s : Int), intensity := some (t : Int),
        influence := getLncAlignment (some (s : Int)),
        pair := (lncTraitMap.getD i ("", "")).1 ++ " / " ++ (lncTraitMap.getD i ("", "")).2 } := by
  obtain ⟨ds, hds, -, -, -, hpc, -⟩ := natChars_single s hs1 hs9
  obtain ⟨dt, hdt, -, -, -, hpc2, -⟩ := natChars_single t ht1 (by omega)
  rw [hds, hdt]
  unfold pairedAt
  simp only [List.cons_append, List.nil_append, List.getElem?_cons_zero,
    List.getElem?_cons_succ, hpc, hpc2]
  simp only [PairedTrait.mk.injEq, Option.some.injEq, and_true, true_and]
  by_cases hc0 : c = 0
  · simp [hc0]
  · simp only [if_neg hc0]
    rw [if_neg (fun h => lncKeys_fst_ne_snd i hi h.symm)]

/-- Decoding one well-formed unpaired entry recovers the letter's mapped
name and the drawn score. -/
lemma decodeUnpaired_entry (t : Char) (g : Nat) (h1 : 1 ≤ g) (h9 : g ≤ 9) :
    decodeUnpaired (t :: natChars g) =
      { name := (gneTraitMap t).getD "Unknown", score := some (g : Int),
        strength := getGneStrength (some (g : Int)) } := by
  obtain ⟨dg, hdg, -, -, -, -, hpi⟩ := natChars_single g h1 h9
  rw [hdg]
  unfold decodeUnpaired
  simp only [List.getElem?_cons_zero, List.drop_succ_cons, List.drop_zero, hpi,
    Option.some_bind]

lemma getD_mem {l : List Nat} {n : Nat} (h : n < l.length) : l.getD n 0 ∈ l := by
  rw [List.getD_eq_getElem l 0 h]
  exact List.getElem_mem h

/-! ## C1: encode–decode round-trip -/

/-- C1: for every outcome of the randomness source (20 coin flips in 0–1,
20 paired scores in 1–9, 20 intensities in 1–5, 20 unpaired scores in 1–9),
decoding the generated DNA string succeeds and returns a lossless result:
20 paired traits carrying the drawn scores and intensities and the name
selected at each position by the chosen letter, 20 unpaired traits carrying
each letter's mapped name and drawn score, and the two alignment averages
equal to the encoder's rounded means. -/
theorem generate_decode_roundtrip (cs ss is gs : List Nat)
    (hcl : cs.length = 20) (hsl : ss.length = 20) (hil : is.length = 20)
    (hgl : gs.length = 20)
    (hcr : ∀ c ∈ cs, c ≤ 1) (hsr : ∀ s ∈ ss, 1 ≤ s ∧ s ≤ 9)
    (hir : ∀ t ∈ is, 1 ≤ t ∧ t ≤ 5) (hgr : ∀ g ∈ gs, 1 ≤ g ∧ g ≤ 9) :
    decodeDna (generatePersonalityDna cs ss is gs) =
      some { alignment := { lnc := getLncAlignment (some (jsRoundDiv ss.sum 20 : Int)),
                            gne := getGneAlignment (some (jsRoundDiv gs.sum 20 : Int)),
                            lncScore := (jsRoundDiv ss.sum 20 : Int),
                            gneScore := (jsRoundDiv gs.sum 20 : Int) },
             pairedTraits := expectedPaired 0 cs ss is,
             unpairedTraits := expectedUnpaired gneTraits gs } ∧
    (expectedPaired 0 cs ss is).length = 20 ∧
    (expectedUnpaired gneTraits gs).length = 20 ∧
    (∀ i, i < 20 →
      (expectedPaired 0 cs ss is).getD i dummyPaired =
        { name := if cs.getD i 0 = 0 then (lncTraitMap.getD i ("", "")).1
                  else (lncTraitMap.getD i ("", "")).2,
          score := some ((ss.getD i 0 : Nat) : Int),
          intensity := some ((is.getD i 0 : Nat) : Int),
          influence := getLncAlignment (some ((ss.getD i 0 : Nat) : Int)),
          pair := (lncTraitMap.getD i ("", "")).1 ++ " / " ++
            (lncTraitMap.getD i ("", "")).2 }) ∧
    (∀ j, j < 20 →
      (expectedUnpaired gneTraits gs).getD j dummyUnpaired =
        { name := (gneTraitMap (gneTraits.getD j ' ')).getD "Unknown",
          score := some ((gs.getD j 0 : Nat) : Int),
          strength := getGneStrength (some ((gs.getD j 0 : Nat) : Int)) }) := by
  have hkl : lncTraits.length = 20 := rfl
  have hgt : gneTraits.length = 20 := rfl
  have hsnd : (lncGen lncTraits cs ss is).2 = ss :=
    lncGen_snd lncTraits cs ss is (by rw [hkl, hcl]) (by rw [hkl, hsl]) (by rw [hkl, hil])
  have hgsnd : (gneGen gneTraits gs).2 = gs := gneGen_snd gneTraits gs (by rw [hgt, hgl])
  have hE1len : (lncGen lncTraits cs ss is).1.length = 20 := by
    rw [lncGen_fst_length lncTraits cs ss is (by rw [hkl, hcl]) (by rw [hkl, hsl])
      (by rw [hkl, hil])]
    exact hkl
  have hE2len : (gneGen gneTraits gs).1.length = 20 := by
    rw [gneGen_fst_length gneTraits gs (by rw [hgt, hgl])]
    exact hgt
  have hE1chars := lncGen_fst_chars lncTraits cs ss is lncTraits_chars hsr hir
  have hE2chars := gneGen_fst_chars gneTraits gs gneTraits_chars hgr
  have hA : 1 ≤ jsRoundDiv ss.sum 20 ∧ jsRoundDiv ss.sum 20 ≤ 9 := by
    obtain ⟨b1, b2⟩ := score_sum_bounds ss hsr
    rw [hsl] at b1 b2
    unfold jsRoundDiv
    omega
  have hBb : 1 ≤ jsRoundDiv gs.sum 20 ∧ jsRoundDiv gs.sum 20 ≤ 9 := by
    obtain ⟨b1, b2⟩ := score_sum_bounds gs hgr
    rw [hgl] at b1 b2
    unfold jsRoundDiv
    omega
  obtain ⟨dA, hdA, -, hdigA, hvalA, -, -⟩ := natChars_single _ hA.1 hA.2
  obtain ⟨dB, hdB, -, hdigB, hvalB, -, -⟩ := natChars_single _ hBb.1 hBb.2
  have hout : (generatePersonalityDna cs ss is gs).data =
      '(' :: dA :: '/' :: dB :: ')' :: ' ' ::
        (joinComma (lncGen lncTraits cs ss is).1 ++ ' ' :: '-' :: ' ' ::
          joinComma (gneGen gneTraits gs).1) := by
    show '(' :: natChars (jsRoundDiv (lncGen lncTraits cs ss is).2.sum
          (lncGen lncTraits cs ss is).2.length) ++
        '/' :: natChars (jsRoundDiv (gneGen gneTraits gs).2.sum
          (gneGen gneTraits gs).2.length) ++ ')' :: ' ' ::
        (joinComma (lncGen lncTraits cs ss is).1 ++ ' ' :: '-' :: ' ' ::
          joinComma (gneGen gneTraits gs).1) = _
    rw [hsnd, hgsnd, hsl, hgl, hdA, hdB]
    rfl
  have hmatch : dnaFindMatch (generatePersonalityDna cs ss is gs).data =
      some ([dA], [dB], joinComma (lncGen lncTraits cs ss is).1,
        joinComma (gneGen gneTraits gs).1) := by
    rw [hout]
    exact dnaFindMatch_of_head _ _ _
      (dnaMatchAt_encoder dA dB hdigA hdigB _ _
        (joinComma_chars _ hE1chars) (joinComma_chars _ hE2chars))
  have hne1 : (lncGen lncTraits cs ss is).1 ≠ [] := by
    intro h; rw [h] at hE1len; simp at hE1len
  have hne2 : (gneGen gneTraits gs).1 ≠ [] := by
    intro h; rw [h] at hE2len; simp at hE2len
  have hsplit1 : splitOnComma (joinComma (lncGen lncTraits cs ss is).1) =
      (lncGen lncTraits cs ss is).1 :=
    splitOnComma_joinComma _ hne1 (fun e he c hc => entryOk_not_comma (hE1chars e he c hc))
  have hsplit2 : splitOnComma (joinComma (gneGen gneTraits gs).1) =
      (gneGen gneTraits gs).1 :=
    splitOnComma_joinComma _ hne2 (fun e he c hc => entryOk_not_comma (hE2chars e he c hc))
  obtain ⟨ps, hps, hpslen, hget⟩ := mapPaired_enumFrom (lncGen lncTraits cs ss is).1 0
    (by rw [hE1len])
  have hdec := decodeDna_eq_some (generatePersonalityDna cs ss is gs) [dA] [dB]
    (joinComma (lncGen lncTraits cs ss is).1) (joinComma (gneGen gneTraits gs).1) hmatch ps
    (by rw [hsplit1]; exact hps)
  have hlenE1 : (expectedPaired 0 cs ss is).length = 20 := by
    rw [expectedPaired_length 0 cs ss is (by rw [hcl, hsl]) (by rw [hcl, hil]), hcl]
  have hlenE2 : (expectedUnpaired gneTraits gs).length = 20 := by
    rw [expectedUnpaired_length gneTraits gs (by rw [hgt, hgl]), hgt]
  have hpsE : ps = expectedPaired 0 cs ss is := by
    apply List.ext_getElem (by rw [hpslen, hE1len, hlenE1])
    intro n h1 h2
    have hn20 : n < 20 := by rw [hpslen, hE1len] at h1; exact h1
    rw [← List.getD_eq_getElem ps dummyPaired h1,
        ← List.getD_eq_getElem _ dummyPaired h2]
    have hg := hget n (by rw [hE1len]; exact hn20)
    rw [Nat.zero_add] at hg
    rw [hg]
    rw [lncGen_fst_getD lncTraits cs ss is n (by rw [hkl, hcl]) (by rw [hkl, hsl])
      (by rw [hkl, hil]) (by rw [hkl]; exact hn20)]
    obtain ⟨hs1, hs9⟩ := hsr _ (getD_mem (show n < ss.length by omega))
    obtain ⟨ht1, ht5⟩ := hir _ (getD_mem (show n < is.length by omega))
    rw [lncTraits_eq_keys,
      pairedAt_entry n hn20 (cs.getD n 0) (ss.getD n 0) (is.getD n 0) hs1 hs9 ht1 ht5,
      expectedPaired_getD 0 cs ss is n (by rw [hcl, hsl]) (by rw [hcl, hil]) (by omega),
      Nat.zero_add]
  have hunp : (gneGen gneTraits gs).1.map decodeUnpaired = expectedUnpaired gneTraits gs := by
    apply List.ext_getElem (by rw [List.length_map, hE2len, hlenE2])
    intro n h1 h2
    have hn20 : n < 20 := by rw [List.length_map, hE2len] at h1; exact h1
    rw [← List.getD_eq_getElem _ dummyUnpaired h1,
        ← List.getD_eq_getElem _ dummyUnpaired h2]
    rw [getD_map decodeUnpaired _ n (by rw [hE2len]; exact hn20) dummyUnpaired []]
    rw [gneGen_fst_getD gneTraits gs n (by rw [hgt, hgl]) (by rw [hgt]; exact hn20)]
    obtain ⟨hg1, hg9⟩ := hgr _ (getD_mem (show n < gs.length by omega))
    rw [decodeUnpaired_entry _ _ hg1 hg9,
      expectedUnpaired_getD gneTraits gs n (by rw [hgt, hgl]) (by rw [hgt]; exact hn20)]
  have hdv1 : digitsVal [dA] = jsRoundDiv ss.sum 20 := by rw [digitsVal_single, hvalA]
  have hdv2 : digitsVal [dB] = jsRoundDiv gs.sum 20 := by rw [digitsVal_single, hvalB]
  refine ⟨?_, hlenE1, hlenE2, ?_, ?_⟩
  · rw [hdec, hsplit2, hpsE, hunp, hdv1, hdv2]
  · intro i hi
    rw [expectedPaired_getD 0 cs ss is i (by rw [hcl, hsl]) (by rw [hcl, hil]) (by omega),
      Nat.zero_add]
  · intro j hj
    rw [expectedUnpaired_getD gneTraits gs j (by rw [hgt, hgl]) (by rw [hgt]; exact hj)]

/-- C1 witness: the round-trip theorem applied to the concrete draw where
every coin flip is 0, every paired score is 5, every intensity is 3 and
every unpaired score is 7. -/
theorem generate_decode_roundtrip_witness :
    (List.replicate 20 0).length = 20 ∧ (List.replicate 20 5).length = 20 ∧
    (List.replicate 20 3).length = 20 ∧ (List.replicate 20 7).length = 20 ∧
    (∀ c ∈ List.replicate 20 0, c ≤ 1) ∧ (∀ s ∈ List.replicate 20 5, 1 ≤ s ∧ s ≤ 9) ∧
    (∀ t ∈ List.replicate 20 3, 1 ≤ t ∧ t ≤ 5) ∧ (∀ g ∈ List.replicate 20 7, 1 ≤ g ∧ g ≤ 9) ∧
    decodeDna (generatePersonalityDna (List.replicate 20 0) (List.replicate 20 5)
        (List.replicate 20 3) (List.replicate 20 7)) =
      some { alignment := { lnc := getLncAlignment (some (jsRoundDiv (List.replicate 20 5).sum 20 : Int)),
                            gne := getGneAlignment (some (jsRoundDiv (List.replicate 20 7).sum 20 : Int)),
                            lncScore := (jsRoundDiv (List.replicate 20 5).sum 20 : Int),
                            gneScore := (jsRoundDiv (List.replicate 20 7).sum 20 : Int) },
             pairedTraits := expectedPaired 0 (List.replicate 20 0) (List.replicate 20 5)
               (List.replicate 20 3),
             unpairedTraits := expectedUnpaired gneTraits (List.replicate 20 7) } :=
  ⟨by decide, by decide, by decide, by decide, by decide, by decide, by decide, by decide,
   (generate_decode_roundtrip (List.replicate 20 0) (List.replicate 20 5)
     (List.replicate 20 3) (List.replicate 20 7) (by decide) (by decide) (by decide)
     (by decide) (by decide) (by decide) (by decide) (by decide)).1⟩

/-! ## C5: encoder output contract -/

/-- C5: under every outcome of the randomness source, the generated string
consists of the two rounded averages followed by exactly 20 paired entries
and exactly 20 unpaired entries in table order: entry `i` of the paired
list is `<score><letter><intensity>` with the drawn score (in 1–9), the
letter one of the two letters at position `i`, and the drawn intensity
(in 1–5); entry `j` of the unpaired list is `<letter><score>` with the
table's `j`-th letter and a score in 1–9; the two leading averages are the
half-up rounded means of the 20 paired and the 20 unpaired scores. -/
theorem encoder_contract (cs ss is gs : List Nat)
    (hcl : cs.length = 20) (hsl : ss.length = 20) (hil : is.length = 20)
    (hgl : gs.length = 20)
    (hcr : ∀ c ∈ cs, c ≤ 1) (hsr : ∀ s ∈ ss, 1 ≤ s ∧ s ≤ 9)
    (hir : ∀ t ∈ is, 1 ≤ t ∧ t ≤ 5) (hgr : ∀ g ∈ gs, 1 ≤ g ∧ g ≤ 9) :
    ∃ lncE gneE : List (List Char),
      generatePersonalityDna cs ss is gs =
        ⟨'(' :: natChars (jsRoundDiv ss.sum 20) ++ '/' :: natChars (jsRoundDiv gs.sum 20) ++
          ')' :: ' ' :: (joinComma lncE ++ ' ' :: '-' :: ' ' :: joinComma gneE)⟩ ∧
      lncE.length = 20 ∧ gneE.length = 20 ∧
      (∀ i, i < 20 →
        lncE.getD i [] =
          natChars (ss.getD i 0) ++
            (if cs.getD i 0 = 0 then (lncTraits.getD i ('A', 'A')).1
             else (lncTraits.getD i ('A', 'A')).2) :: natChars (is.getD i 0) ∧
        1 ≤ ss.getD i 0 ∧ ss.getD i 0 ≤ 9 ∧ 1 ≤ is.getD i 0 ∧ is.getD i 0 ≤ 5) ∧
      (∀ j, j < 20 →
        gneE.getD j [] = gneTraits.getD j ' ' :: natChars (gs.getD j 0) ∧
        1 ≤ gs.getD j 0 ∧ gs.getD j 0 ≤ 9) := by
  have hkl : lncTraits.length = 20 := rfl
  have hgt : gneTraits.length = 20 := rfl
  have hsnd : (lncGen lncTraits cs ss is).2 = ss :=
    lncGen_snd lncTraits cs ss is (by rw [hkl, hcl]) (by rw [hkl, hsl]) (by rw [hkl, hil])
  have hgsnd : (gneGen gneTraits gs).2 = gs := gneGen_snd gneTraits gs (by rw [hgt, hgl])
  refine ⟨(lncGen lncTraits cs ss is).1, (gneGen gneTraits gs).1, ?_, ?_, ?_, ?_, ?_⟩
  · exact congrArg String.mk (by rw [hsnd, hgsnd, hsl, hgl])
  · rw [lncGen_fst_length lncTraits cs ss is (by rw [hkl, hcl]) (by rw [hkl, hsl])
      (by rw [hkl, hil])]
    exact hkl
  · rw [gneGen_fst_length gneTraits gs (by rw [hgt, hgl])]
    exact hgt
  · intro i hi
    obtain ⟨hs1, hs9⟩ := hsr _ (getD_mem (show i < ss.length by omega))
    obtain ⟨ht1, ht5⟩ := hir _ (getD_mem (show i < is.length by omega))
    exact ⟨lncGen_fst_getD lncTraits cs ss is i (by rw [hkl, hcl]) (by rw [hkl, hsl])
      (by rw [hkl, hil]) (by rw [hkl]; exact hi), hs1, hs9, ht1, ht5⟩
  · intro j hj
    obtain ⟨hg1, hg9⟩ := hgr _ (getD_mem (show j < gs.length by omega))
    exact ⟨gneGen_fst_getD gneTraits gs j (by rw [hgt, hgl]) (by rw [hgt]; exact hj),
      hg1, hg9⟩

/-- C5 witness: the encoder contract at the concrete draw where every coin
flip is 1, every paired score is 9, every intensity is 5 and every unpaired
score is 1. -/
theorem encoder_contract_witness :
    (List.replicate 20 1).length = 20 ∧ (List.replicate 20 9).length = 20 ∧
    (List.replicate 20 5).length = 20 ∧ (List.replicate (20 : Nat) (1 : Nat)).length = 20 ∧
    (∀ c ∈ List.replicate 20 1, c ≤ 1) ∧ (∀ s ∈ List.replicate 20 9, 1 ≤ s ∧ s ≤ 9) ∧
    (∀ t ∈ List.replicate 20 5, 1 ≤ t ∧ t ≤ 5) ∧
    (∀ g ∈ List.replicate (20 : Nat) (1 : Nat), 1 ≤ g ∧ g ≤ 9) ∧
    ∃ lncE gneE : List (List Char),
      generatePersonalityDna (List.replicate 20 1) (List.replicate 20 9)
          (List.replicate 20 5) (List.replicate 20 1) =
        ⟨'(' :: natChars (jsRoundDiv (List.replicate 20 9).sum 20) ++
          '/' :: natChars (jsRoundDiv (List.replicate (20 : Nat) (1 : Nat)).sum 20) ++
          ')' :: ' ' :: (joinComma lncE ++ ' ' :: '-' :: ' ' :: joinComma gneE)⟩ ∧
      lncE.length = 20 ∧ gneE.length = 20 ∧
      (∀ i, i < 20 →
        lncE.getD i [] =
          natChars ((List.replicate 20 9).getD i 0) ++
            (if (List.replicate 20 1).getD i 0 = 0 then (lncTraits.getD i ('A', 'A')).1
             else (lncTraits.getD i ('A', 'A')).2) :: natChars ((List.replicate 20 5).getD i 0) ∧
        1 ≤ (List.replicate 20 9).getD i 0 ∧ (List.replicate 20 9).getD i 0 ≤ 9 ∧
        1 ≤ (List.replicate 20 5).getD i 0 ∧ (List.replicate 20 5).getD i 0 ≤ 5) ∧
      (∀ j, j < 20 →
        gneE.getD j [] = gneTraits.getD j ' ' ::
          natChars ((List.replicate (20 : Nat) (1 : Nat)).getD j 0) ∧
        1 ≤ (List.replicate (20 : Nat) (1 : Nat)).getD j 0 ∧
        (List.replicate (20 : Nat) (1 : Nat)).getD j 0 ≤ 9) :=
  ⟨by decide, by decide, by decide, by decide, by decide, by decide, by decide, by decide,
   encoder_contract (List.replicate 20 1) (List.replicate 20 9) (List.replicate 20 5)
     (List.replicate 20 1) (by decide) (by decide) (by decide) (by decide) (by decide)
     (by decide) (by decide) (by decide)⟩

end NpcDna

namespace NpcStats

open NpcDna (jsParseInt)

/-! ## The tabletop stat-block calculator

Embedding of `generateStats` from `components/NpcCard.tsx`: a pure,
table-driven function of the character record, reading only its `race` and
`profession` fields. -/

/-- The generated character record (`Npc` in `types.ts`). -/
structure Npc where
  name : String
  gender : String
  race : String
  age : String
  intelligence : String
  hairStyle : String
  hairColor : String
  facialHair : String
  height : String
  weight : String
  eyeShape : String
  eyeColor : String
  complexion : String
  descriptor : String
  profession : String
  demeanor : String
  wantsOrNeed : String
  secretOrObstacle : String
  alsoCarrying : List String
  gold : Nat
  silver : Nat
  copper : Nat
  fullDescription : String
  deriving Repr, DecidableEq

/-- The six ability scores (also used for the six derived modifiers). -/
structure AbilityScores where
  str : Int
  dex : Int
  con : Int
  int : Int
  wis : Int
  cha : Int
  deriving Repr, DecidableEq

/-- The six printed modifier strings. -/
structure AbilityMods where
  str : String
  dex : String
  con : String
  int : String
  wis : String
  cha : String
  deriving Repr, DecidableEq

/-- The derived stat block (`StatBlock` in `components/NpcCard.tsx`). -/
structure StatBlock where
  armorClass : Nat
  hitPoints : String
  speed : String
  abilityScores : AbilityScores
  abilityMods : AbilityMods
  skills : String
  senses : String
  languages : String
  challenge : String
  actions : List (String × String)
  traits : List (String × String)
  deriving Repr, DecidableEq

/-- `getModifier`: `Math.floor((score - 10) / 2)` (floor division). -/
def getModifier (score : Int) : Int := Int.fdiv (score - 10) 2

/-- `getModifierString`: the modifier with an explicit `+` when
non-negative. -/
def getModifierString (score : Int) : String :=
  let mod := getModifier score
  if 0 ≤ mod then "+" ++ toString mod else toString mod

/-- The fixed proficiency bonus. -/
def profBonus : Int := 2

/-- Everything the race `switch` block establishes: adjusted scores, speed,
languages, racial skill proficiencies and racial traits. -/
structure RaceData where
  scores : AbilityScores
  speed : String
  languages : List String
  skills : List (String × Int)
  traits : List (String × String)

/-- All scores start at 10. -/
def baseScores : AbilityScores := ⟨10, 10, 10, 10, 10, 10⟩

/-- The race `switch` of `generateStats`. -/
def raceData (race : String) : RaceData :=
  match race with
  | "Dwarf" =>
    { scores := { baseScores with con := baseScores.con + 2 }, speed := "25 ft.",
      languages := ["Common", "Dwarvish"], skills := [],
      traits := [("Dwarven Resilience",
        "The dwarf has advantage on saving throws against poison.")] }
  | "Elf" =>
    { scores := { baseScores with dex := baseScores.dex + 2 }, speed := "30 ft.",
      languages := ["Common", "Elvish"], skills := [("Perception", profBonus)],
      traits := [("Fey Ancestry",
        "The elf has advantage on saving throws against being charmed, and magic can’t put it to sleep.")] }
  | "Halfling" =>
    { scores := { baseScores with dex := baseScores.dex + 2 }, speed := "25 ft.",
      languages := ["Common", "Halfling"], skills := [],
      traits := [("Lucky",
        "When the halfling rolls a 1 on an attack roll, ability check, or saving throw, it can reroll the die and must use the new roll.")] }
  | "Human" =>
    { scores := ⟨baseScores.str + 1, baseScores.dex + 1, baseScores.con + 1,
        baseScores.int + 1, baseScores.wis + 1, baseScores.cha + 1⟩,
      speed := "30 ft.", languages := ["Common"], skills := [], traits := [] }
  | "Gnome" =>
    { scores := { baseScores with int := baseScores.int + 2 }, speed := "25 ft.",
      languages := ["Common", "Gnomish"], skills := [],
      traits := [("Gnome Cunning",
        "The gnome has advantage on all Intelligence, Wisdom, and Charisma saving throws against magic.")] }
  | "Half-elf" =>
    { scores :=
        { baseScores with
            cha := baseScores.cha + 2, dex := baseScores.dex + 1, int := baseScores.int + 1 },
      speed := "30 ft.", languages := ["Common", "Elvish"],
      skills := [("Perception", profBonus)],
      traits := [("Fey Ancestry",
        "The half-elf has advantage on saving throws against being charmed, and magic can’t put it to sleep.")] }
  | "Half-orc" =>
    { scores := { baseScores with str := baseScores.str + 2, con := baseScores.con + 1 },
      speed := "30 ft.", languages := ["Common", "Orc"],
      skills := [("Intimidation", profBonus)],
      traits := [("Relentless Endurance",
        "When the half-orc is reduced to 0 hit points but not killed outright, it can drop to 1 hit point instead. It can’t use this feature again until it finishes a long rest.")] }
  | "Tiefling" =>
    { scores := { baseScores with cha := baseScores.cha + 2, int := baseScores.int + 1 },
      speed := "30 ft.", languages := ["Common", "Infernal"], skills := [],
      traits := [("Hellish Resistance", "The tiefling has resistance to fire damage.")] }
  | "Goliath" =>
    { scores := { baseScores with str := baseScores.str + 2, con := baseScores.con + 1 },
      speed := "30 ft.", languages := ["Common"], skills := [("Athletics", profBonus)],
      traits := [] }
  | _ =>
    { scores := baseScores, speed := "30 ft.", languages := ["Common"], skills := [],
      traits := [] }

/-- A profession template: armor class, hit-die count and size, skill
proficiencies and weapon list. -/
structure ProfTemplate where
  ac : Nat
  hpCount : Nat
  hpSize : Nat
  skills : List (String × Int)
  weapons : List String

/-- ASCII lower-casing, models `String.prototype.toLowerCase()` on the
ASCII profession strings. -/
def toLowerStr (s : String) : String := ⟨s.data.map Char.toLower⟩

/-- Does the first list start with the second? -/
def listStarts : List Char → List Char → Bool
  | _, [] => true
  | [], _ :: _ => false
  | a :: as, b :: bs => a == b && listStarts as bs

/-- Substring containment, models `String.prototype.includes`. -/
def listHas : List Char → List Char → Bool
  | [], sub => sub.isEmpty
  | a :: as, sub => listStarts (a :: as) sub || listHas as sub

/-- `s.includes(sub)` for strings. -/
def includesStr (s sub : String) : Bool := listHas s.data sub.data

/-- The profession keyword chain of `generateStats`: first matching keyword
group wins; unmatched professions keep the default `Club` template.  Returns
the selected template together with the profession-adjusted scores. -/
def profData (prof : String) (s : AbilityScores) : ProfTemplate × AbilityScores :=
  if includesStr prof "guard" || includesStr prof "soldier" || includesStr prof "mercenary" then
    ({ ac := 16, hpCount := 2, hpSize := 8, skills := [("Perception", profBonus)],
       weapons := ["Spear", "Longsword"] },
     { s with str := s.str + 2, con := s.con + 1 })
  else if includesStr prof "sage" || includesStr prof "scholar" || includesStr prof "scribe" then
    ({ ac := 10, hpCount := 1, hpSize := 8,
       skills := [("History", profBonus), ("Arcana", profBonus)],
       weapons := ["Quarterstaff"] },
     { s with int := s.int + 2, wis := s.wis + 1 })
  else if includesStr prof "cutpurse" || includesStr prof "thief" || includesStr prof "burglar" then
    ({ ac := 12, hpCount := 2, hpSize := 8,
       skills := [("Sleight of Hand", profBonus), ("Stealth", profBonus)],
       weapons := ["Dagger", "Shortsword"] },
     { s with dex := s.dex + 2, cha := s.cha + 1 })
  else if includesStr prof "farmer" || includesStr prof "laborer" then
    ({ ac := 10, hpCount := 1, hpSize := 8, skills := [("Animal Handling", profBonus)],
       weapons := ["Sickle"] },
     { s with str := s.str + 2, con := s.con + 1 })
  else if includesStr prof "blacksmith" || includesStr prof "mason" then
    ({ ac := 13, hpCount := 3, hpSize := 8, skills := [("Athletics", profBonus)],
       weapons := ["Light Hammer"] },
     { s with str := s.str + 2, con := s.con + 1 })
  else if includesStr prof "noble" || includesStr prof "courtier" || includesStr prof "diplomat" then
    ({ ac := 10, hpCount := 2, hpSize := 8,
       skills := [("Persuasion", profBonus), ("Deception", profBonus)],
       weapons := ["Rapier"] },
     { s with cha := s.cha + 2, int := s.int + 1 })
  else
    ({ ac := 10, hpCount := 1, hpSize := 8, skills := [], weapons := ["Club"] }, s)

/-- JS-object insertion: update in place when the key exists, append
otherwise (preserves `Object.entries` ordering). -/
def objInsert (m : List (String × Int)) (k : String) (v : Int) : List (String × Int) :=
  if m.any (fun p => p.1 == k) then m.map (fun p => if p.1 == k then (k, v) else p)
  else m ++ [(k, v)]

/-- `Object.assign(skills, template.skills)`: insert the template's entries
in order into the race-seeded skills object. -/
def objAssign (m : List (String × Int)) : List (String × Int) → List (String × Int)
  | [] => m
  | (k, v) :: rest => objAssign (objInsert m k v) rest

/-- Derive the six modifiers from the scores. -/
def modsOf (sc : AbilityScores) : AbilityScores :=
  ⟨getModifier sc.str, getModifier sc.dex, getModifier sc.con,
   getModifier sc.int, getModifier sc.wis, getModifier sc.cha⟩

/-- The fixed skill-to-ability map of the `skillString` computation
(with `|| 0` for unmapped skills). -/
def skillAbilityMod (mods : AbilityScores) (skill : String) : Int :=
  match skill with
  | "Athletics" => mods.str
  | "Stealth" => mods.dex
  | "Sleight of Hand" => mods.dex
  | "Arcana" => mods.int
  | "History" => mods.int
  | "Perception" => mods.wis
  | "Animal Handling" => mods.wis
  | "Deception" => mods.cha
  | "Intimidation" => mods.cha
  | "Persuasion" => mods.cha
  | _ => 0

/-- `array.join(sep)` on strings. -/
def joinStrings (sep : String) : List String → String
  | [] => ""
  | [x] => x
  | x :: y :: rest => x ++ sep ++ joinStrings sep (y :: rest)

/-- JS truthiness of `skills['Perception']`: present with a non-zero
bonus. -/
def skillTruthy (skills : List (String × Int)) : Bool :=
  match skills.lookup "Perception" with
  | some v => !(v == 0)
  | none => false

/-- Which ability a weapon attacks with (`type: 'str' | 'dex'`). -/
inductive WeaponAbility
  | strAb
  | dexAb
  deriving Repr, DecidableEq

/-- One `weaponData` record. -/
structure WeaponInfo where
  wtype : WeaponAbility
  damage : String
  range : Option String
  versatile : Option String

/-- The fixed weapon table of `generateStats`. -/
def weaponData : String → Option WeaponInfo
  | "Club" => some ⟨.strAb, "1d4", none, none⟩
  | "Dagger" => some ⟨.dexAb, "1d4", some "20/60 ft.", none⟩
  | "Light Hammer" => some ⟨.strAb, "1d4", some "20/60 ft.", none⟩
  | "Quarterstaff" => some ⟨.strAb, "1d6", none, some "1d8"⟩
  | "Sickle" => some ⟨.strAb, "1d4", none, none⟩
  | "Spear" => some ⟨.strAb, "1d6", some "20/60 ft.", some "1d8"⟩
  | "Longsword" => some ⟨.strAb, "1d8", none, some "1d10"⟩
  | "Shortsword" => some ⟨.dexAb, "1d6", none, none⟩
  | "Rapier" => some ⟨.dexAb, "1d8", none, none⟩
  | _ => none

/-- `parseInt(damage.split('d')[1])`: the number after the first `d` of a
damage die string.  Every string in `weaponData` parses, so the `NaN`
default is never taken. -/
def dieMaxOf (damage : String) : Int :=
  (jsParseInt ((damage.data.dropWhile (fun c => !(c == 'd'))).drop 1)).getD 0

/-- One entry of the `actions` array: `null` (dropped) for weapons missing
from `weaponData`, otherwise the attack description string. -/
def weaponAction (mods : AbilityScores) (w : String) : Option (String × String) :=
  match weaponData w with
  | none => none
  | some data =>
    let abilityMod := match data.wtype with
      | .strAb => mods.str
      | .dexAb => mods.dex
    let attackMod := abilityMod + profBonus
    let damageMod := abilityMod
    let hitVal := Int.fdiv (dieMaxOf data.damage) 2 + 1 + damageMod
    let dmgTail := data.damage ++ (if 0 ≤ damageMod then " + " else " - ") ++
      toString damageMod.natAbs
    let desc0 := match data.range with
      | none =>
        "Melee Weapon Attack: " ++ (if 0 ≤ attackMod then "+" else "") ++
          toString attackMod ++ " to hit, reach 5 ft., one target. Hit: " ++
          toString hitVal ++ " (" ++ dmgTail ++ ") piercing damage."
      | some r =>
        "Melee or Ranged Weapon Attack: " ++ (if 0 ≤ attackMod then "+" else "") ++
          toString attackMod ++ " to hit, reach 5 ft. or range " ++ r ++
          ", one target. Hit: " ++ toString hitVal ++ " (" ++ dmgTail ++
          ") piercing damage."
    let desc := match data.versatile with
      | none => desc0
      | some v =>
        desc0 ++ " or " ++ toString (Int.fdiv (dieMaxOf v) 2 + 1 + damageMod) ++
          " (" ++ v ++ (if 0 ≤ damageMod then " + " else " - ") ++
          toString damageMod.natAbs ++ ") damage if used with two hands."
    some (w, desc)

/-- The hit-point value: `Math.max(1, Math.floor(hpDice[0] * 4.5) +
hpDice[0] * mods.con)`; `Math.floor(c * 4.5)` is exactly `⌊9c/2⌋`. -/
def hpValue (t : ProfTemplate) (conMod : Int) : Int :=
  max 1 (Int.fdiv (9 * (t.hpCount : Int)) 2 + (t.hpCount : Int) * conMod)

/-- The printed hit-point string
`` `${hp} (${count}d${size}${conMod >= 0 ? ' + ' : ' - '}${abs(count*conMod)})` ``. -/
def hitPointsStr (t : ProfTemplate) (conMod : Int) : String :=
  toString (hpValue t conMod) ++ " (" ++ toString t.hpCount ++ "d" ++ toString t.hpSize ++
    (if 0 ≤ conMod then " + " else " - ") ++ toString ((t.hpCount : Int) * conMod).natAbs ++ ")"

/-- Model of `generateStats` (`components/NpcCard.tsx`): race adjustments,
profession template by keyword, derived modifiers, hit points, skill string,
passive perception, weapon actions, and the 3-bucket challenge rating. -/
def generateStats (npc : Npc) : StatBlock :=
  let rd := raceData npc.race
  let tp := profData (toLowerStr npc.profession) rd.scores
  let template := tp.1
  let scores := tp.2
  let skills := objAssign rd.skills template.skills
  let mods := modsOf scores
  let hp := hpValue template mods.con
  let skillString := joinStrings ", "
    (skills.map fun p => p.1 ++ " " ++ getModifierString (10 + skillAbilityMod mods p.1 * 2 + p.2))
  let passivePerception : Int := 10 + mods.wis + (if skillTruthy skills then profBonus else 0)
  { armorClass := template.ac,
    hitPoints := hitPointsStr template mods.con,
    speed := rd.speed,
    abilityScores := scores,
    abilityMods := ⟨getModifierString scores.str, getModifierString scores.dex,
      getModifierString scores.con, getModifierString scores.int,
      getModifierString scores.wis, getModifierString scores.cha⟩,
    skills := skillString,
    senses := "passive Perception " ++ toString passivePerception,
    languages := joinStrings ", " rd.languages,
    challenge := if hp > 35 then "1/4 (50 XP)" else if hp > 6 then "1/8 (25 XP)"
      else "0 (10 XP)",
    actions := template.weapons.filterMap (weaponAction mods),
    traits := rd.traits }

/-! ### Sanity check -/

example :
    (generateStats
      { name := "T", gender := "male", race := "Dwarf", age := "old",
        intelligence := "", hairStyle := "", hairColor := "", facialHair := "", height := "",
        weight := "", eyeShape := "", eyeColor := "", complexion := "", descriptor := "",
        profession := "Town Guard", demeanor := "", wantsOrNeed := "", secretOrObstacle := "",
        alsoCarrying := [], gold := 0, silver := 0, copper := 0,
        fullDescription := "" }).hitPoints = "11 (2d8 + 2)" := by rfl

/-! ## C8: hit-point formula -/

lemma profData_hpSize (prof : String) (s : AbilityScores) :
    (profData prof s).1.hpSize = 8 := by
  unfold profData
  split_ifs <;> rfl

/-- C8: for every character, the computed hit points equal
`max 1 (⌊count · 4.5⌋ + count · conMod)` — written `⌊9·count / 2⌋` for the
exact floor — where `count` is the selected template's hit-die count and
`conMod` the constitution modifier after race and profession adjustments;
the hit die is the d8 in every profession template; and this value heads
the stat block's printed hit-point string. -/
theorem hit_point_formula (npc : Npc) :
    (profData (toLowerStr npc.profession) (raceData npc.race).scores).1.hpSize = 8 ∧
    (generateStats npc).hitPoints =
      (let t := (profData (toLowerStr npc.profession) (raceData npc.race).scores).1
       let conMod := getModifier
         (profData (toLowerStr npc.profession) (raceData npc.race).scores).2.con
       toString (max 1 (Int.fdiv (9 * (t.hpCount : Int)) 2 + (t.hpCount : Int) * conMod)) ++
         " (" ++ toString t.hpCount ++ "d" ++ toString (8 : Nat) ++
         (if 0 ≤ conMod then " + " else " - ") ++
         toString ((t.hpCount : Int) * conMod).natAbs ++ ")") := by
  refine ⟨profData_hpSize _ _, ?_⟩
  show hitPointsStr (profData (toLowerStr npc.profession) (raceData npc.race).scores).1
    (modsOf (profData (toLowerStr npc.profession) (raceData npc.race).scores).2).con = _
  unfold hitPointsStr hpValue
  rw [show (modsOf (profData (toLowerStr npc.profession) (raceData npc.race).scores).2).con
      = getModifier (profData (toLowerStr npc.profession) (raceData npc.race).scores).2.con
    from rfl]
  rw [profData_hpSize (toLowerStr npc.profession) (raceData npc.race).scores]

/-! ## C9: stat-block determinism in race and profession -/

/-- C9: `generateStats` reads only the `race` and `profession` fields of
the character record — two records agreeing on those two fields produce
identical stat blocks, with no hidden randomness; in particular two calls
on the same record agree. -/
theorem stat_block_deterministic (n1 n2 : Npc) (hr : n1.race = n2.race)
    (hp : n1.profession = n2.profession) : generateStats n1 = generateStats n2 := by
  unfold generateStats
  rw [hr, hp]

/-- C9 witness: two records sharing only race `"Elf"` and profession
`"sage"` — every other field differs — receive the same stat block. -/
theorem stat_block_deterministic_witness :
    ({ name := "Aria", gender := "female", race := "Elf", age := "young",
       intelligence := "sharp", hairStyle := "long", hairColor := "silver",
       facialHair := ".", height := "tall", weight := "slim", eyeShape := "almond",
       eyeColor := "green", complexion := "pale", descriptor := "calm",
       profession := "sage", demeanor := "kind", wantsOrNeed := "books",
       secretOrObstacle := "debt", alsoCarrying := ["quill"], gold := 3, silver := 7,
       copper := 1, fullDescription := "Aria the sage" } : Npc).race =
      ({ name := "Borin", gender := "male", race := "Elf", age := "old",
         intelligence := "dull", hairStyle := "short", hairColor := "black",
         facialHair := "beard", height := "short", weight := "stout",
         eyeShape := "narrow", eyeColor := "brown", complexion := "dark",
         descriptor := "gruff", profession := "sage", demeanor := "wary",
         wantsOrNeed := "coin", secretOrObstacle := "rival", alsoCarrying := [],
         gold := 0, silver := 0, copper := 9,
         fullDescription := "Borin the sage" } : Npc).race ∧
    ({ name := "Aria", gender := "female", race := "Elf", age := "young",
       intelligence := "sharp", hairStyle := "long", hairColor := "silver",
       facialHair := ".", height := "tall", weight := "slim", eyeShape := "almond",
       eyeColor := "green", complexion := "pale", descriptor := "calm",
       profession := "sage", demeanor := "kind", wantsOrNeed := "books",
       secretOrObstacle := "debt", alsoCarrying := ["quill"], gold := 3, silver := 7,
       copper := 1, fullDescription := "Aria the sage" } : Npc).profession =
      ({ name := "Borin", gender := "male", race := "Elf", age := "old",
         intelligence := "dull", hairStyle := "short", hairColor := "black",
         facialHair := "beard", height := "short", weight := "stout",
         eyeShape := "narrow", eyeColor := "brown", complexion := "dark",
         descriptor := "gruff", profession := "sage", demeanor := "wary",
         wantsOrNeed := "coin", secretOrObstacle := "rival", alsoCarrying := [],
         gold := 0, silver := 0, copper := 9,
         fullDescription := "Borin the sage" } : Npc).profession ∧
    generateStats
      { name := "Aria", gender := "female", race := "Elf", age := "young",
        intelligence := "sharp", hairStyle := "long", hairColor := "silver",
        facialHair := ".", height := "tall", weight := "slim", eyeShape := "almond",
        eyeColor := "green", complexion := "pale", descriptor := "calm",
        profession := "sage", demeanor := "kind", wantsOrNeed := "books",
        secretOrObstacle := "debt", alsoCarrying := ["quill"], gold := 3, silver := 7,
        copper := 1, fullDescription := "Aria the sage" } =
    generateStats
      { name := "Borin", gender := "male", race := "Elf", age := "old",
        intelligence := "dull", hairStyle := "short", hairColor := "black",
        facialHair := "beard", height := "short", weight := "stout",
        eyeShape := "narrow", eyeColor := "brown", complexion := "dark",
        descriptor := "gruff", profession := "sage", demeanor := "wary",
        wantsOrNeed := "coin", secretOrObstacle := "rival", alsoCarrying := [],
        gold := 0, silver := 0, copper := 9,
        fullDescription := "Borin the sage" } :=
  ⟨rfl, rfl, stat_block_deterministic _ _ rfl rfl⟩

end NpcStats

namespace NpcParse

open NpcDna (isJsSpace)

/-! ## The markdown section extractor

Embedding of the section-parsing part of `parsedProfile`
(`components/NpcCard.tsx`): per known header, the first occurrence of the
regex `(^|\n)\s*(?:#+\s*)?(?:\*\*)?HEADER(?:\*\*)?` (case-insensitive) is
located in the content block; headers not found are discarded, the rest are
sorted by position, and each section body is the text from the end of its
header match to the start of the next found header (or the end of the
text), trimmed.

The matcher below is the deterministic maximal-munch evaluation of that
regex.  It is exact for the header literals of this program, all of which
begin with a letter: backtracking inside `\s*`, `#+` or `(?:\*\*)?` could
only help if the literal began with a whitespace, `#` or `*` character. -/

/-- Greedy run of characters satisfying `p`: count and remainder. -/
def munch (p : Char → Bool) : List Char → Nat × List Char
  | [] => (0, [])
  | c :: cs => if p c then
      let r := munch p cs
      (r.1 + 1, r.2)
    else (0, c :: cs)

/-- Case-insensitive literal match of a header at the head of the text;
returns the remainder on success. -/
def litMatch : List Char → List Char → Option (List Char)
  | [], cs => some cs
  | _ :: _, [] => none
  | h :: hs, c :: cs => if h.toLower == c.toLower then litMatch hs cs else none

/-- Length consumed by the trailing `(?:\*\*)?` (greedy). -/
def optBold : List Char → Nat
  | '*' :: '*' :: _ => 2
  | _ => 0

/-- Match `\s*(?:#+\s*)?(?:\*\*)?HEADER(?:\*\*)?` at the current position;
returns the total consumed length. -/
def matchCore (hdr : List Char) (cs : List Char) : Option Nat :=
  let w1 := munch isJsSpace cs
  let h := munch (fun c => c == '#') w1.2
  let w2 := if h.1 > 0 then munch isJsSpace h.2 else (0, h.2)
  let pre := w1.1 + h.1 + w2.1
  match w2.2 with
  | '*' :: '*' :: r3 =>
    (match litMatch hdr r3 with
     | some rest => some (pre + 2 + (hdr.length + optBold rest))
     | none =>
       -- the optional `\*\*` backtracks to consuming nothing
       match litMatch hdr w2.2 with
       | some rest => some (pre + hdr.length + optBold rest)
       | none => none)
  | _ =>
    match litMatch hdr w2.2 with
    | some rest => some (pre + hdr.length + optBold rest)
    | none => none

/-- The `(^|\n)` anchor: at position 0 the `^` branch subsumes the `\n`
branch (its `\s*` consumes any leading newline); elsewhere a literal `\n`
must be consumed, and is part of the match. -/
def headerMatchAt (hdr : List Char) (atStart : Bool) (cs : List Char) : Option Nat :=
  if atStart then matchCore hdr cs
  else
    match cs with
    | '\n' :: r => (matchCore hdr r).map (· + 1)
    | _ => none

/-- Scan left to right for the first position where the header regex
matches; returns `(index, match length)`. -/
def headerFindAux (hdr : List Char) : Nat → Bool → List Char → Option (Nat × Nat)
  | pos, atStart, [] =>
    match headerMatchAt hdr atStart [] with
    | some len => some (pos, len)
    | none => none
  | pos, atStart, c :: rest =>
    match headerMatchAt hdr atStart (c :: rest) with
    | some len => some (pos, len)
    | none => headerFindAux hdr (pos + 1) false rest

/-- `text.match(headerRegex)`: index and length of the first occurrence. -/
def headerFind (hdr : List Char) (text : List Char) : Option (Nat × Nat) :=
  headerFindAux hdr 0 true text

/-- The fixed list of known section headers (`allHeaders`). -/
def profileHeaders : List String :=
  ["Appearance & Presence", "Personality & Internal Conflict", "Backstory",
   "Behavioral Model (BDI)", "Strengths & Weaknesses", "Secrets",
   "Significant Relationships", "Notable Possessions", "Roleplaying Cues",
   "Example Interaction", "Adventure Hooks"]

/-- The section-map keys, as the TS key derivation (lower-case, ` & `
collapsed to a space, whitespace and hyphen runs to `_`, parentheses
stripped) yields them on each fixed header, in order. -/
def headerKeys : List String :=
  ["appearance_presence", "personality_internal_conflict", "backstory",
   "behavioral_model_bdi", "strengths_weaknesses", "secrets",
   "significant_relationships", "notable_possessions", "roleplaying_cues",
   "example_interaction", "adventure_hooks"]

/-- Headers paired with their derived keys. -/
def headerTable : List (String × String) := profileHeaders.zip headerKeys

/-- The start of the first content section: the smallest match index of
`"Profile"` or any known header over the whole profile, defaulting to the
text length. -/
def firstSectionIndex (profile : List Char) : Nat :=
  ("Profile" :: profileHeaders).foldl
    (fun acc h =>
      match headerFind h.data profile with
      | some il => min acc il.1
      | none => acc)
    profile.length

/-- `profile.substring(firstSectionIndex)`. -/
def contentBlock (profile : String) : List Char :=
  profile.data.drop (firstSectionIndex profile.data)

/-- One located header: its section key, match index and match length. -/
structure HeaderLoc where
  key : String
  index : Nat
  headerLength : Nat
  deriving Repr, DecidableEq

/-- Stable insertion by index (the JS comparison sort on
`a.index - b.index` is stable). -/
def insertByIndex (x : HeaderLoc) : List HeaderLoc → List HeaderLoc
  | [] => [x]
  | y :: ys => if x.index < y.index then x :: y :: ys else y :: insertByIndex x ys

/-- Stable sort by match index. -/
def sortByIndex : List HeaderLoc → List HeaderLoc
  | [] => []
  | x :: xs => insertByIndex x (sortByIndex xs)

/-- Locate every known header's first occurrence, discard those not found,
and sort by position (the `headerLocations` pipeline). -/
def locateHeaders (text : List Char) : List HeaderLoc :=
  sortByIndex (headerTable.filterMap fun hk =>
    (headerFind hk.1.data text).map fun il => ⟨hk.2, il.1, il.2⟩)

/-- `String.prototype.substring(a, b)`: clamps both ends to the length and
swaps them when `a > b`. -/
def jsSubstring (text : List Char) (a b : Nat) : List Char :=
  let a' := min a text.length
  let b' := min b text.length
  (text.drop (min a' b')).take (max a' b' - min a' b')

/-- `String.prototype.trim()`. -/
def trimStr (cs : List Char) : List Char :=
  ((cs.dropWhile isJsSpace).reverse.dropWhile isJsSpace).reverse

/-- The section-slicing loop: each found header's body runs from the end of
its match to the next found header's index (or the end of the text),
trimmed. -/
def buildSections (text : List Char) : List HeaderLoc → List (String × List Char)
  | [] => []
  | l :: rest =>
    let endIdx := match rest with
      | [] => text.length
      | l2 :: _ => l2.index
    (l.key, trimStr (jsSubstring text (l.index + l.headerLength) endIdx)) ::
      buildSections text rest

/-- The section fields of the parsed profile (`undefined` = `none` when a
header was not found). -/
structure SectionRecord where
  appearance : Option (List Char)
  personality : Option (List Char)
  backstory : Option (List Char)
  bdi : Option (List Char)
  strengthsWeaknesses : Option (List Char)
  secrets : Option (List Char)
  relationships : Option (List Char)
  possessions : Option (List Char)
  roleplayingCues : Option (List Char)
  interaction : Option (List Char)
  hooks : Option (List Char)
  deriving Repr, DecidableEq

/-- The section-parsing part of `parsedProfile`: build the section map and
assign each field from its key. -/
def parseSections (profile : String) : SectionRecord :=
  let text := contentBlock profile
  let m := buildSections text (locateHeaders text)
  { appearance := List.lookup "appearance_presence" m,
    personality := List.lookup "personality_internal_conflict" m,
    backstory := List.lookup "backstory" m,
    bdi := List.lookup "behavioral_model_bdi" m,
    strengthsWeaknesses := List.lookup "strengths_weaknesses" m,
    secrets := List.lookup "secrets" m,
    relationships := List.lookup "significant_relationships" m,
    possessions := List.lookup "notable_possessions" m,
    roleplayingCues := List.lookup "roleplaying_cues" m,
    interaction := List.lookup "example_interaction" m,
    hooks := List.lookup "adventure_hooks" m }

/-- The memo's result: parsed sections, or the raw text on a parse
exception.  Every string operation in the section pipeline is total, so the
`catch` branch of the TS code is unreachable in this model; it exists for
defensive robustness only. -/
inductive ParseOutcome
  | content (r : SectionRecord)
  | errorRaw (raw : String)
  deriving Repr, DecidableEq

/-- The full section parser with its (unreachable) error case. -/
def parseProfile (profile : String) : ParseOutcome :=
  .content (parseSections profile)

/-! ### Sanity checks -/

example :
    (parseSections "**Gandalf**\n**Role:** Wizard\nBackstory\nBorn long ago.\nSecrets\nNone.").backstory
      = some ("Born long ago.".data) := by rfl

example :
    (parseSections "**Gandalf**\n**Role:** Wizard\nBackstory\nBorn long ago.\nSecrets\nNone.").secrets
      = some ("None.".data) := by rfl

example : (parseSections "no headers here at all").appearance = none := by rfl

/-! ### Lemmas about the section pipeline -/

/-- Junk location used as a `getD` default. -/
def dummyLoc : HeaderLoc := ⟨"", 0, 0⟩

lemma buildSections_length (text : List Char) : ∀ locs : List HeaderLoc,
    (buildSections text locs).length = locs.length := by
  intro locs
  induction locs with
  | nil => rfl
  | cons l rest ih =>
    show (buildSections text rest).length + 1 = rest.length + 1
    rw [ih]

lemma buildSections_keys (text : List Char) : ∀ locs : List HeaderLoc,
    (buildSections text locs).map Prod.fst = locs.map HeaderLoc.key := by
  intro locs
  induction locs with
  | nil => rfl
  | cons l rest ih =>
    show l.key :: (buildSections text rest).map Prod.fst = l.key :: rest.map HeaderLoc.key
    rw [ih]

lemma buildSections_getD (text : List Char) : ∀ (locs : List HeaderLoc) (i : Nat),
    i < locs.length →
    (buildSections text locs).getD i ("", []) =
      ((locs.getD i dummyLoc).key,
       trimStr (jsSubstring text
         ((locs.getD i dummyLoc).index + (locs.getD i dummyLoc).headerLength)
         (if i + 1 < locs.length then (locs.getD (i + 1) dummyLoc).index
          else text.length))) := by
  intro locs
  induction locs with
  | nil => intro i hi; simp at hi
  | cons l rest ih =>
    intro i hi
    cases i with
    | zero =>
      cases rest with
      | nil =>
        rw [if_neg (by simp)]
        rfl
      | cons l2 rest2 =>
        rw [if_pos (by simp only [List.length_cons]; omega)]
        rfl
    | succ n =>
      have hn : n < rest.length := by simp at hi; omega
      show (buildSections text rest).getD n ("", []) = _
      rw [ih n hn]
      by_cases hc : n + 1 < rest.length
      · rw [if_pos hc, if_pos (show n + 1 + 1 < (l :: rest).length by
          simp only [List.length_cons]; omega)]
        simp only [List.getD_cons_succ]
      · rw [if_neg hc, if_neg (show ¬ n + 1 + 1 < (l :: rest).length by
          simp only [List.length_cons]; omega)]
        simp only [List.getD_cons_succ]

/-- Keys of a `filterMap` that preserves a key function: contained in the
source keys, and duplicate-free when the source keys are. -/
lemma keys_of_filterMap {α : Type} (f : α → Option HeaderLoc) (key : α → String)
    (hf : ∀ a loc, f a = some loc → loc.key = key a) :
    ∀ tbl : List α,
      (∀ k ∈ (tbl.filterMap f).map HeaderLoc.key, k ∈ tbl.map key) ∧
      ((tbl.map key).Nodup → ((tbl.filterMap f).map HeaderLoc.key).Nodup) := by
  intro tbl
  induction tbl with
  | nil => exact ⟨by simp, by simp⟩
  | cons a tbl' ih =>
    obtain ⟨ihsub, ihnd⟩ := ih
    cases hfa : f a with
    | none =>
      rw [List.filterMap_cons, hfa]
      exact ⟨fun k hk => by simp only [List.map_cons, List.mem_cons]; exact Or.inr (ihsub k hk),
        fun hnd => ihnd ((List.nodup_cons.mp hnd).2)⟩
    | some loc =>
      rw [List.filterMap_cons, hfa]
      have hkey : loc.key = key a := hf a loc hfa
      constructor
      · intro k hk
        rcases List.mem_cons.mp hk with rfl | hk'
        · simp [hkey]
        · simp only [List.map_cons, List.mem_cons]
          exact Or.inr (ihsub k hk')
      · intro hnd
        obtain ⟨hnotin, hnd'⟩ := List.nodup_cons.mp hnd
        rw [List.map_cons, List.nodup_cons]
        exact ⟨fun hmem => hnotin (hkey ▸ ihsub loc.key hmem), ihnd hnd'⟩

lemma insertByIndex_perm (x : HeaderLoc) : ∀ l : List HeaderLoc,
    (insertByIndex x l).Perm (x :: l) := by
  intro l
  induction l with
  | nil => exact List.Perm.refl _
  | cons y ys ih =>
    unfold insertByIndex
    by_cases h : x.index < y.index
    · rw [if_pos h]
    · rw [if_neg h]
      exact ((ih.cons y).trans (List.Perm.swap x y ys))

lemma sortByIndex_perm : ∀ l : List HeaderLoc, (sortByIndex l).Perm l := by
  intro l
  induction l with
  | nil => exact List.Perm.refl _
  | cons x xs ih =>
    exact (insertByIndex_perm x (sortByIndex xs)).trans (ih.cons x)

/-- The keys of the located-and-sorted header list are pairwise distinct:
each found header contributes its own fixed key, and the fixed keys are
distinct. -/
lemma locateHeaders_keys_nodup (text : List Char) :
    ((locateHeaders text).map HeaderLoc.key).Nodup := by
  have hperm := (sortByIndex_perm (headerTable.filterMap fun hk =>
    (headerFind hk.1.data text).map fun il => (⟨hk.2, il.1, il.2⟩ : HeaderLoc))).map
    HeaderLoc.key
  rw [show locateHeaders text = sortByIndex (headerTable.filterMap fun hk =>
    (headerFind hk.1.data text).map fun il => (⟨hk.2, il.1, il.2⟩ : HeaderLoc)) from rfl]
  rw [hperm.nodup_iff]
  refine (keys_of_filterMap _ Prod.snd ?_ headerTable).2 ?_
  · intro hk loc hfl
    cases hfind : headerFind hk.1.data text with
    | none => rw [hfind] at hfl; cases hfl
    | some il =>
      rw [hfind] at hfl
      have hloc : (⟨hk.2, il.1, il.2⟩ : HeaderLoc) = loc := by
        have h2 : some (⟨hk.2, il.1, il.2⟩ : HeaderLoc) = some loc := hfl
        injection h2
      rw [← hloc]
  · rw [show headerTable.map Prod.snd = headerKeys from rfl]
    decide

lemma lookup_of_nodup {β : Type} : ∀ (l : List (String × β)) (d : String × β) (i : Nat),
    (l.map Prod.fst).Nodup → i < l.length →
    List.lookup (l.getD i d).1 l = some (l.getD i d).2 := by
  intro l
  induction l with
  | nil => intro d i _ hi; simp at hi
  | cons p l' ih =>
    intro d i hnd hi
    obtain ⟨k, v⟩ := p
    cases i with
    | zero =>
      show List.lookup k ((k, v) :: l') = some v
      simp [List.lookup_cons]
    | succ n =>
      have hn : n < l'.length := by simp at hi; omega
      have hnd2 : (k :: l'.map Prod.fst).Nodup := by
        rw [List.map_cons] at hnd
        exact hnd
      obtain ⟨hnotin, hnd'⟩ := List.nodup_cons.mp hnd2
      have hne : ((l'.getD n d).1 == k) = false := by
        rw [beq_eq_false_iff_ne]
        intro he
        apply hnotin
        rw [← he, List.getD_eq_getElem l' d hn]
        exact List.mem_map_of_mem Prod.fst (List.getElem_mem hn)
      show List.lookup (l'.getD n d).1 ((k, v) :: l') = some (l'.getD n d).2
      rw [List.lookup_cons, hne]
      exact ih d n hnd' hn

/-! ## C6: section bodies are the slices between consecutive headers -/

set_option maxHeartbeats 1000000 in
/-- C6: for every profile text, consider the known headers located in the
content block (first regex occurrence each, markup-tolerant and
case-insensitive, anchored at line starts), with the ones not found
discarded and the rest sorted by position.  The body stored in the section
map for the `i`-th found header is exactly the substring of the content
block from the end of that header's match to the start of the next found
header's match — or to the end of the text for the last one — trimmed. -/
theorem section_bodies_are_slices (profile : String) (i : Nat)
    (hi : i < (locateHeaders (contentBlock profile)).length) :
    List.lookup ((locateHeaders (contentBlock profile)).getD i dummyLoc).key
        (buildSections (contentBlock profile) (locateHeaders (contentBlock profile))) =
      some (trimStr (jsSubstring (contentBlock profile)
        (((locateHeaders (contentBlock profile)).getD i dummyLoc).index +
          ((locateHeaders (contentBlock profile)).getD i dummyLoc).headerLength)
        (if i + 1 < (locateHeaders (contentBlock profile)).length
         then ((locateHeaders (contentBlock profile)).getD (i + 1) dummyLoc).index
         else (contentBlock profile).length))) := by
  have hb := buildSections_getD (contentBlock profile) (locateHeaders (contentBlock profile))
    i hi
  have hnd : ((buildSections (contentBlock profile)
      (locateHeaders (contentBlock profile))).map Prod.fst).Nodup := by
    rw [buildSections_keys]
    exact locateHeaders_keys_nodup (contentBlock profile)
  have hlen : i < (buildSections (contentBlock profile)
      (locateHeaders (contentBlock profile))).length := by
    rw [buildSections_length]
    exact hi
  have hl := lookup_of_nodup (buildSections (contentBlock profile)
    (locateHeaders (contentBlock profile))) ("", []) i hnd hlen
  rw [hb] at hl
  exact hl

/-- C6 witness: a profile containing the `Backstory` and `Secrets` headers;
the body stored for the first located header (`Backstory`) is the trimmed
slice up to the `Secrets` header. -/
theorem section_bodies_are_slices_witness :
    0 < (locateHeaders (contentBlock
      "**Gandalf**\n**Role:** Wizard\nBackstory\nBorn long ago.\nSecrets\nNone.")).length ∧
    List.lookup ((locateHeaders (contentBlock
        "**Gandalf**\n**Role:** Wizard\nBackstory\nBorn long ago.\nSecrets\nNone.")).getD 0
          dummyLoc).key
        (buildSections (contentBlock
          "**Gandalf**\n**Role:** Wizard\nBackstory\nBorn long ago.\nSecrets\nNone.")
          (locateHeaders (contentBlock
            "**Gandalf**\n**Role:** Wizard\nBackstory\nBorn long ago.\nSecrets\nNone."))) =
      some (trimStr (jsSubstring (contentBlock
          "**Gandalf**\n**Role:** Wizard\nBackstory\nBorn long ago.\nSecrets\nNone.")
        (((locateHeaders (contentBlock
            "**Gandalf**\n**Role:** Wizard\nBackstory\nBorn long ago.\nSecrets\nNone.")).getD 0
              dummyLoc).index +
          ((locateHeaders (contentBlock
            "**Gandalf**\n**Role:** Wizard\nBackstory\nBorn long ago.\nSecrets\nNone.")).getD 0
              dummyLoc).headerLength)
        (if 0 + 1 < (locateHeaders (contentBlock
            "**Gandalf**\n**Role:** Wizard\nBackstory\nBorn long ago.\nSecrets\nNone.")).length
         then ((locateHeaders (contentBlock
            "**Gandalf**\n**Role:** Wizard\nBackstory\nBorn long ago.\nSecrets\nNone.")).getD
              (0 + 1) dummyLoc).index
         else (contentBlock
           "**Gandalf**\n**Role:** Wizard\nBackstory\nBorn long ago.\nSecrets\nNone.").length))) :=
  ⟨by decide,
   section_bodies_are_slices
     "**Gandalf**\n**Role:** Wizard\nBackstory\nBorn long ago.\nSecrets\nNone." 0 (by decide)⟩

/-! ## C7: graceful degradation when no header is recognized -/

/-- C7: for every profile in which none of the known section headers is
located in the content block, the parser does not fail: it returns the
section mapping (the `content` case, not the raw-text error case) with
every section field empty (`none`, the model of the `undefined` the TS code
assigns from the empty section map).  The low-content condition in the
source only logs a warning and the mapping is returned regardless — the
result below is the full return value. -/
theorem no_headers_all_blank (profile : String)
    (h : locateHeaders (contentBlock profile) = []) :
    parseProfile profile = ParseOutcome.content (parseSections profile) ∧
    (parseSections profile).appearance = none ∧
    (parseSections profile).personality = none ∧
    (parseSections profile).backstory = none ∧
    (parseSections profile).bdi = none ∧
    (parseSections profile).strengthsWeaknesses = none ∧
    (parseSections profile).secrets = none ∧
    (parseSections profile).relationships = none ∧
    (parseSections profile).possessions = none ∧
    (parseSections profile).roleplayingCues = none ∧
    (parseSections profile).interaction = none ∧
    (parseSections profile).hooks = none := by
  refine ⟨rfl, ?_, ?_, ?_, ?_, ?_, ?_, ?_, ?_, ?_, ?_, ?_⟩ <;>
    (show List.lookup _ (buildSections (contentBlock profile)
        (locateHeaders (contentBlock profile))) = none
     rw [h]
     rfl)

/-- C7 witness: a document with no recognized headers parses to a record
whose section fields are all empty. -/
theorem no_headers_all_blank_witness :
    locateHeaders (contentBlock "just an ordinary paragraph with no markup") = [] ∧
    (parseProfile "just an ordinary paragraph with no markup" =
      ParseOutcome.content (parseSections "just an ordinary paragraph with no markup") ∧
    (parseSections "just an ordinary paragraph with no markup").appearance = none ∧
    (parseSections "just an ordinary paragraph with no markup").personality = none ∧
    (parseSections "just an ordinary paragraph with no markup").backstory = none ∧
    (parseSections "just an ordinary paragraph with no markup").bdi = none ∧
    (parseSections "just an ordinary paragraph with no markup").strengthsWeaknesses = none ∧
    (parseSections "just an ordinary paragraph with no markup").secrets = none ∧
    (parseSections "just an ordinary paragraph with no markup").relationships = none ∧
    (parseSections "just an ordinary paragraph with no markup").possessions = none ∧
    (parseSections "just an ordinary paragraph with no markup").roleplayingCues = none ∧
    (parseSections "just an ordinary paragraph with no markup").interaction = none ∧
    (parseSections "just an ordinary paragraph with no markup").hooks = none) :=
  ⟨by decide, no_headers_all_blank "just an ordinary paragraph with no markup" (by decide)⟩

end NpcParse
